/-
Verification of the pitwall reconciliation and scoring core.

Shallow embedding of the silver-layer logic:
- conflict resolution of driver car numbers (upsert_driver_numbers_by_season.py)
- driver identity resolution via aliases (upsert_drivers.py)
- lap validity derivation (backfill_lap_validity.py)
- completion bands, minimum-race-laps gate and points (upsert_points_awarding.py)
- keyed upserts (upsert_results.py, upsert_laps.py)
-/
import Mathlib

namespace Pitwall

/-! ## Conflict Resolver (upsert_driver_numbers_by_season.py) -/

/-- Session type priority for conflict resolution (higher number = higher
priority), from `SESSION_TYPE_PRIORITY` with the dict `.get(st, 0)` default. -/
def SESSION_TYPE_PRIORITY (st : String) : Nat :=
  if st = "race" then 3
  else if st = "quali" then 2
  else if st = "sprint_quali" then 2
  else if st = "p1" then 1
  else if st = "p2" then 1
  else if st = "p3" then 1
  else if st = "sprint" then 1
  else 0

/-- One car-number observation: a record of `resolve_driver_number_conflicts`
input after driver-id resolution. -/
structure NumberObs where
  driver_id : String
  season : Int
  driver_number : Int
  session_type : String
deriving DecidableEq

/-- Python `max` over a list of naturals (with 0 for the empty list;
the source only applies it to non-empty lists). -/
def maxNat (l : List Nat) : Nat := l.foldl max 0

/-- Occurrence count of a car number in a list of observations
(the `number_counts` dict of the source). -/
def countNum (l : List NumberObs) (n : Int) : Nat :=
  l.countP (fun r => r.driver_number = n)

/-- One step of Python `min` over a list of integers. -/
def minStep (acc : Option Int) (x : Int) : Option Int :=
  match acc with
  | none => some x
  | some m => some (min m x)

/-- Python `min` over a list of integers, `none` on the empty list. -/
def minIntOpt (l : List Int) : Option Int := l.foldl minStep none

/-- Per-group body of `resolve_driver_number_conflicts`: the value stored in
`resolved[(driver_id, season)]` for one group of records sharing that key.
Mirrors the source: single-record shortcut, session-type priority filter with
its own length-1 shortcut, frequency filter with its length-1 shortcut, then
lowest number. -/
def resolveGroup (g : List NumberObs) : Option Int :=
  match g with
  | [] => none
  | [r] => some r.driver_number
  | _ :: _ :: _ =>
    let maxPr := maxNat (g.map (fun r => SESSION_TYPE_PRIORITY r.session_type))
    let pf := g.filter (fun r => SESSION_TYPE_PRIORITY r.session_type = maxPr)
    if pf.length = 1 then
      pf.head?.map (fun r => r.driver_number)
    else
      let maxCount := maxNat (pf.map (fun r => countNum pf r.driver_number))
      let mostFrequent :=
        ((pf.map (fun r => r.driver_number)).dedup).filter
          (fun n => countNum pf n = maxCount)
      if mostFrequent.length = 1 then mostFrequent.head?
      else minIntOpt mostFrequent

/-- `resolve_driver_number_conflicts` restricted to one `(driver_id, season)`
key: the source groups records by that key and resolves each group; the group
for a key is the sublist of records carrying that key, in input order. -/
def resolve_driver_number_conflicts (records : List NumberObs)
    (d : String) (s : Int) : Option Int :=
  resolveGroup (records.filter (fun r => r.driver_id = d ∧ r.season = s))

/-! Spec-side three-tier description (for the refinement statement of C1):
tier 1 keeps observations of maximal session-type weight, tier 2 keeps the
values of maximal occurrence count among the survivors, tier 3 takes the
numerically lowest value. -/

/-- Tier 1 of the spec's scheme: observations whose weight equals the maximum
weight present in the group. -/
def specTier1 (g : List NumberObs) : List NumberObs :=
  g.filter (fun r =>
    SESSION_TYPE_PRIORITY r.session_type
      = maxNat (g.map (fun x => SESSION_TYPE_PRIORITY x.session_type)))

/-- Tier 2 of the spec's scheme: the distinct surviving values whose
occurrence count among tier-1 survivors is maximal. -/
def specTier2 (g : List NumberObs) : List Int :=
  let s := specTier1 g
  ((s.map (fun r => r.driver_number)).dedup).filter
    (fun n => countNum s n = maxNat (s.map (fun r => countNum s r.driver_number)))

/-- The spec's three-tier value: numerically lowest tier-2 survivor. -/
def specResolve (g : List NumberObs) : Option Int := minIntOpt (specTier2 g)

/-! ### Lemmas about the conflict resolver -/

lemma foldl_max_eq_or_mem (l : List Nat) :
    ∀ a : Nat, l.foldl max a = a ∨ l.foldl max a ∈ l := by
  induction l with
  | nil => intro a; left; rfl
  | cons h t ih =>
    intro a
    rcases ih (max a h) with he | hm
    · rw [List.foldl_cons, he]
      rcases le_total a h with hh | hh
      · right; rw [max_eq_right hh]; exact List.mem_cons_self h t
      · left; rw [max_eq_left hh]
    · right; exact List.mem_cons_of_mem _ hm

lemma maxNat_mem {l : List Nat} (h : l ≠ []) : maxNat l ∈ l := by
  cases l with
  | nil => exact absurd rfl h
  | cons x t =>
    unfold maxNat
    rw [List.foldl_cons, Nat.zero_max]
    rcases foldl_max_eq_or_mem t x with he | hm
    · rw [he]; exact List.mem_cons_self x t
    · exact List.mem_cons_of_mem _ hm

lemma minIntOpt_step_isSome (l : List Int) :
    ∀ m : Int, (List.foldl minStep (some m) l).isSome := by
  induction l with
  | nil => intro m; rfl
  | cons h t ih => intro m; simpa only [List.foldl_cons, minStep] using ih (min m h)

lemma minIntOpt_isSome {l : List Int} (h : l ≠ []) : (minIntOpt l).isSome := by
  cases l with
  | nil => exact absurd rfl h
  | cons x t =>
    unfold minIntOpt
    simpa only [List.foldl_cons] using minIntOpt_step_isSome t x

lemma specTier1_of_singleton (r : NumberObs) : specTier1 [r] = [r] := by
  simp [specTier1, maxNat]

lemma specTier2_of_tier1_singleton {g : List NumberObs} {r : NumberObs}
    (h : specTier1 g = [r]) : specTier2 g = [r.driver_number] := by
  unfold specTier2
  rw [h]
  simp [countNum, maxNat]

lemma specResolve_of_singleton (r : NumberObs) :
    specResolve [r] = some r.driver_number := by
  unfold specResolve
  rw [specTier2_of_tier1_singleton (specTier1_of_singleton r)]
  rfl

/-- On every non-empty group, the source's conflict resolution body computes
exactly the spec's three-tier value. -/
theorem resolveGroup_eq_specResolve (g : List NumberObs) (hg : g ≠ []) :
    resolveGroup g = specResolve g := by
  match g with
  | [] => exact absurd rfl hg
  | [r] => rw [specResolve_of_singleton]; rfl
  | r1 :: r2 :: t =>
    show (if (specTier1 (r1 :: r2 :: t)).length = 1 then
        (specTier1 (r1 :: r2 :: t)).head?.map (fun r => r.driver_number)
      else if (specTier2 (r1 :: r2 :: t)).length = 1 then
        (specTier2 (r1 :: r2 :: t)).head?
      else minIntOpt (specTier2 (r1 :: r2 :: t))) = specResolve (r1 :: r2 :: t)
    by_cases h1 : (specTier1 (r1 :: r2 :: t)).length = 1
    · obtain ⟨r, hr⟩ := List.length_eq_one.mp h1
      rw [if_pos h1, hr, specResolve, specTier2_of_tier1_singleton hr]
      rfl
    · rw [if_neg h1]
      by_cases h2 : (specTier2 (r1 :: r2 :: t)).length = 1
      · obtain ⟨n, hn⟩ := List.length_eq_one.mp h2
        rw [if_pos h2, hn, specResolve, hn]
        rfl
      · rw [if_neg h2]; rfl

lemma specTier1_ne_nil {g : List NumberObs} (hg : g ≠ []) :
    specTier1 g ≠ [] := by
  have hmap : g.map (fun x => SESSION_TYPE_PRIORITY x.session_type) ≠ [] := by
    simpa using hg
  have hmem := maxNat_mem hmap
  obtain ⟨r, hrg, hrw⟩ := List.mem_map.mp hmem
  have : r ∈ specTier1 g := by
    apply List.mem_filter.mpr
    exact ⟨hrg, by simp [hrw]⟩
  exact List.ne_nil_of_mem this

lemma specTier2_ne_nil {g : List NumberObs} (hg : g ≠ []) :
    specTier2 g ≠ [] := by
  have hs := specTier1_ne_nil hg
  set s := specTier1 g with hsdef
  have hmap : s.map (fun r => countNum s r.driver_number) ≠ [] := by
    simpa using hs
  have hmem := maxNat_mem hmap
  obtain ⟨r, hrs, hrw⟩ := List.mem_map.mp hmem
  have hnum : r.driver_number ∈ (s.map (fun r => r.driver_number)).dedup :=
    List.mem_dedup.mpr (List.mem_map.mpr ⟨r, hrs, rfl⟩)
  have : r.driver_number ∈ specTier2 g := by
    unfold specTier2
    rw [← hsdef]
    exact List.mem_filter.mpr ⟨hnum, by simp [hrw]⟩
  exact List.ne_nil_of_mem this

lemma specResolve_isSome {g : List NumberObs} (hg : g ≠ []) :
    (specResolve g).isSome := minIntOpt_isSome (specTier2_ne_nil hg)

/-! ### Permutation invariance -/

lemma foldl_max_perm {l l' : List Nat} (h : l.Perm l') :
    ∀ a : Nat, l.foldl max a = l'.foldl max a := by
  induction h with
  | nil => intro a; rfl
  | cons x _ ih => intro a; simp only [List.foldl_cons]; exact ih _
  | swap x y l =>
    intro a
    simp only [List.foldl_cons]
    have hmx : max (max a y) x = max (max a x) y := by
      rw [max_assoc, max_comm y x, ← max_assoc]
    rw [hmx]
  | trans _ _ ih1 ih2 => intro a; rw [ih1, ih2]

lemma maxNat_perm {l l' : List Nat} (h : l.Perm l') : maxNat l = maxNat l' :=
  foldl_max_perm h 0

lemma minStep_comm (acc : Option Int) (x y : Int) :
    minStep (minStep acc x) y = minStep (minStep acc y) x := by
  rcases acc with _ | m
  · simp only [minStep]
    rw [min_comm]
  · simp only [minStep]
    rw [min_assoc, min_comm x y, ← min_assoc]

lemma foldl_minstep_perm {l l' : List Int} (h : l.Perm l') :
    ∀ acc : Option Int, List.foldl minStep acc l = List.foldl minStep acc l' := by
  induction h with
  | nil => intro acc; rfl
  | cons x _ ih => intro acc; simp only [List.foldl_cons]; exact ih _
  | swap x y l =>
    intro acc
    simp only [List.foldl_cons]
    rw [minStep_comm]
  | trans _ _ ih1 ih2 => intro acc; rw [ih1, ih2]

lemma minIntOpt_perm {l l' : List Int} (h : l.Perm l') :
    minIntOpt l = minIntOpt l' := foldl_minstep_perm h none

lemma countNum_perm {s s' : List NumberObs} (h : s.Perm s') (n : Int) :
    countNum s n = countNum s' n := h.countP_eq _

lemma specTier1_perm {g g' : List NumberObs} (h : g.Perm g') :
    (specTier1 g).Perm (specTier1 g') := by
  unfold specTier1
  rw [maxNat_perm (h.map (fun x => SESSION_TYPE_PRIORITY x.session_type))]
  exact h.filter _

lemma specTier2_perm {g g' : List NumberObs} (h : g.Perm g') :
    (specTier2 g).Perm (specTier2 g') := by
  have h1 := specTier1_perm h
  unfold specTier2
  have hfun : (fun r : NumberObs => countNum (specTier1 g) r.driver_number)
      = (fun r : NumberObs => countNum (specTier1 g') r.driver_number) := by
    funext r; exact countNum_perm h1 _
  have hmax : maxNat ((specTier1 g).map
        (fun r => countNum (specTier1 g) r.driver_number))
      = maxNat ((specTier1 g').map
        (fun r => countNum (specTier1 g') r.driver_number)) := by
    rw [hfun]
    exact maxNat_perm (h1.map _)
  have hpred : ∀ n : Int,
      (countNum (specTier1 g) n
          = maxNat ((specTier1 g).map
            (fun r => countNum (specTier1 g) r.driver_number)))
        ↔ (countNum (specTier1 g') n
          = maxNat ((specTier1 g').map
            (fun r => countNum (specTier1 g') r.driver_number))) := by
    intro n
    rw [countNum_perm h1 n, hmax]
  have heq : ((specTier1 g).map (fun r => r.driver_number)).dedup.filter
        (fun n => countNum (specTier1 g) n
          = maxNat ((specTier1 g).map
            (fun r => countNum (specTier1 g) r.driver_number)))
      = ((specTier1 g).map (fun r => r.driver_number)).dedup.filter
        (fun n => countNum (specTier1 g') n
          = maxNat ((specTier1 g').map
            (fun r => countNum (specTier1 g') r.driver_number))) := by
    apply List.filter_congr
    intro n _
    simp only [decide_eq_decide]
    exact hpred n
  rw [heq]
  exact ((h1.map _).dedup).filter _

lemma specResolve_perm {g g' : List NumberObs} (h : g.Perm g') :
    specResolve g = specResolve g' := minIntOpt_perm (specTier2_perm h)

lemma resolveGroup_perm {g g' : List NumberObs} (h : g.Perm g') :
    resolveGroup g = resolveGroup g' := by
  rcases eq_or_ne g [] with hg | hg
  · subst hg
    rw [h.nil_eq.symm]
  · have hg' : g' ≠ [] := by
      intro hne
      subst hne
      exact hg h.symm.nil_eq.symm
    rw [resolveGroup_eq_specResolve g hg, resolveGroup_eq_specResolve g' hg',
      specResolve_perm h]

/-- Concrete observation set of the spec's determinism example:
[(44, race), (44, practice), (63, practice)] for one (driver, season) key. -/
def conflictExampleObs : List NumberObs :=
  [⟨"drv:max-verstappen", 2024, 44, "race"⟩,
   ⟨"drv:max-verstappen", 2024, 44, "practice"⟩,
   ⟨"drv:max-verstappen", 2024, 63, "practice"⟩]

/-- A reversal of the example observation set, used as a concrete permuted input. -/
def conflictExampleObsRev : List NumberObs :=
  [⟨"drv:max-verstappen", 2024, 63, "practice"⟩,
   ⟨"drv:max-verstappen", 2024, 44, "practice"⟩,
   ⟨"drv:max-verstappen", 2024, 44, "race"⟩]

lemma resolve_conflicts_total (records : List NumberObs) (d : String) (s : Int)
    (h : records.filter (fun r => r.driver_id = d ∧ r.season = s) ≠ []) :
    ∃ n, resolve_driver_number_conflicts records d s = some n := by
  rw [resolve_driver_number_conflicts, resolveGroup_eq_specResolve _ h]
  exact Option.isSome_iff_exists.mp (specResolve_isSome h)

/-- C1: for every group of car-number observations sharing one
(driver_id, season) key, the Conflict Resolver returns exactly one number and
that number is the spec's three-tier value: maximal session-type weight first,
then highest occurrence count among the survivors, then the numerically
lowest value. -/
theorem c1_conflict_resolver_three_tier (records : List NumberObs)
    (d : String) (s : Int)
    (h : records.filter (fun r => r.driver_id = d ∧ r.season = s) ≠ []) :
    resolve_driver_number_conflicts records d s
      = specResolve (records.filter (fun r => r.driver_id = d ∧ r.season = s))
    ∧ ∃ n, resolve_driver_number_conflicts records d s = some n := by
  exact ⟨resolveGroup_eq_specResolve _ h, resolve_conflicts_total records d s h⟩

/-- Witness for C1 at a concrete observation set. -/
theorem c1_conflict_resolver_three_tier_witness :
    conflictExampleObs.filter
      (fun r => r.driver_id = "drv:max-verstappen" ∧ r.season = 2024) ≠ [] ∧
    (resolve_driver_number_conflicts conflictExampleObs "drv:max-verstappen" 2024
      = specResolve (conflictExampleObs.filter
        (fun r => r.driver_id = "drv:max-verstappen" ∧ r.season = 2024))
    ∧ ∃ n, resolve_driver_number_conflicts conflictExampleObs
        "drv:max-verstappen" 2024 = some n) :=
  ⟨by decide,
   c1_conflict_resolver_three_tier conflictExampleObs "drv:max-verstappen" 2024
     (by decide)⟩

/-- C2: the Conflict Resolver is total and order-independent: permuting the
observation list never changes the resolved number for a key, any key with at
least one observation resolves to exactly one number, and every permutation of
[(44, race), (44, practice), (63, practice)] resolves to 44. -/
theorem c2_conflict_resolver_order_independent
    (l l' : List NumberObs) (d : String) (s : Int) :
    (l.Perm l' →
      resolve_driver_number_conflicts l d s
        = resolve_driver_number_conflicts l' d s)
    ∧ ((∃ r ∈ l, r.driver_id = d ∧ r.season = s) →
      ∃ n, resolve_driver_number_conflicts l d s = some n)
    ∧ (l.Perm conflictExampleObs →
      resolve_driver_number_conflicts l "drv:max-verstappen" 2024 = some 44) := by
  refine ⟨fun hp => ?_, fun he => ?_, fun hp => ?_⟩
  · exact resolveGroup_perm (hp.filter _)
  · obtain ⟨r, hrl, hrd, hrs⟩ := he
    have hmem : r ∈ l.filter (fun r => r.driver_id = d ∧ r.season = s) :=
      List.mem_filter.mpr ⟨hrl, decide_eq_true ⟨hrd, hrs⟩⟩
    exact resolve_conflicts_total l d s (List.ne_nil_of_mem hmem)
  · have := resolveGroup_perm (hp.filter
      (fun r => decide (r.driver_id = "drv:max-verstappen" ∧ r.season = 2024)))
    rw [resolve_driver_number_conflicts, this]
    decide

/-- Witness for C2: a reversed input list is a permutation of the example and
resolves to 44; the same key is total on it. -/
theorem c2_conflict_resolver_order_independent_witness :
    (resolve_driver_number_conflicts conflictExampleObsRev "drv:max-verstappen" 2024
      = resolve_driver_number_conflicts conflictExampleObs "drv:max-verstappen" 2024)
    ∧ (∃ n, resolve_driver_number_conflicts conflictExampleObsRev
        "drv:max-verstappen" 2024 = some n)
    ∧ resolve_driver_number_conflicts conflictExampleObsRev
        "drv:max-verstappen" 2024 = some 44 :=
  ⟨(c2_conflict_resolver_order_independent conflictExampleObsRev
      conflictExampleObs "drv:max-verstappen" 2024).1 (by decide),
   (c2_conflict_resolver_order_independent conflictExampleObsRev
      conflictExampleObs "drv:max-verstappen" 2024).2.1 (by decide),
   (c2_conflict_resolver_order_independent conflictExampleObsRev
      conflictExampleObs "drv:max-verstappen" 2024).2.2 (by decide)⟩

/-! ## Entity Resolver (upsert_drivers.py) -/

/-- The driver alias table: (alias_text, driver_id) rows of silver.driver_alias. -/
abbrev AliasTable := List (String × String)

/-- Python dict lookup `alias_map[variant]` on the alias table (first row with
an exactly matching alias text). -/
def lookupAlias (tbl : AliasTable) (k : String) : Option String :=
  tbl.findSome? (fun p => if p.1 = k then some p.2 else none)

/-- Python `str.lower()` (ASCII model). -/
def strLower (s : String) : String := String.mk (s.data.map Char.toLower)

/-- Python `str.upper()` (ASCII model). -/
def strUpper (s : String) : String := String.mk (s.data.map Char.toUpper)

/-- Python `str.strip()`: drop whitespace from both ends. -/
def pyStrip (s : String) : String :=
  String.mk
    (((s.data.dropWhile Char.isWhitespace).reverse.dropWhile
      Char.isWhitespace).reverse)

/-- The `full_name_variants` list built by `resolve_driver_id_from_alias`. -/
def full_name_variants (first last : String) : List String :=
  [first ++ " " ++ last,
   first ++ " " ++ strUpper last,
   strUpper first ++ " " ++ last,
   strUpper first ++ " " ++ strUpper last]

/-- `resolve_driver_id_from_alias`: try the variants in order, return the
mapped driver id on the first hit, else `none`. -/
def resolve_driver_id_from_alias (first last : String) (tbl : AliasTable) :
    Option String :=
  (full_name_variants first last).findSome? (fun v => lookupAlias tbl v)

/-- The inner `sanitize` of `generate_driver_id`: lower-case, strip, turn
spaces and slashes into hyphens, drop other non-alphanumeric characters. -/
def pySanitize (name : String) : String :=
  let lowered := pyStrip (strLower name)
  let replaced := lowered.data.map
    (fun c => if c = ' ' ∨ c = '/' ∨ c = '\\' then '-' else c)
  String.mk (replaced.filter (fun c => c.isAlphanum ∨ c = '-'))

/-- `generate_driver_id`: `drv:{first}-{last}` after sanitizing, `none` when a
name is missing (empty, which is falsy in Python). -/
def generate_driver_id (first last : String) : Option String :=
  if first = "" ∨ last = "" then none
  else some ("drv:" ++ pySanitize first ++ "-" ++ pySanitize last)

/-- Python falsiness of an optional string (`None` or the empty string). -/
def pyFalsy : Option String → Bool
  | none => true
  | some s => s = ""

/-- The caller-side combination used by both upsert flows: alias lookup first,
synthesis when the alias result is falsy, skip when both are falsy. -/
def resolveDriverId (first last : String) (tbl : AliasTable) : Option String :=
  let fromAlias := resolve_driver_id_from_alias first last tbl
  let d := if pyFalsy fromAlias then generate_driver_id first last else fromAlias
  if pyFalsy d then none else d

/-- Case-insensitive alias lookup, as the claim describes it. -/
def lookupAliasCI (tbl : AliasTable) (k : String) : Option String :=
  tbl.findSome? (fun p => if strLower p.1 = strLower k then some p.2 else none)

/-- The resolver exactly as claim C3 words it: case-insensitive candidates
"First Last" and "Last First", first hit wins, otherwise synthesize. -/
def claimedResolveDriverId (first last : String) (tbl : AliasTable) :
    Option String :=
  match ([first ++ " " ++ last, last ++ " " ++ first]).findSome?
      (fun c => lookupAliasCI tbl c) with
  | some id => some id
  | none => generate_driver_id first last

/-- An alias table containing only a last-name-first entry: the claimed
resolver finds it case-insensitively, the source resolver does not. -/
def aliasTableLastFirst : AliasTable := [("Verstappen Max", "drv:ver-alias")]

/-- Counterexample for C3: with an alias entry "Verstappen Max", the claimed
algorithm (case-insensitive "First Last"/"Last First" candidates) returns the
alias-mapped id, but the source resolver only tries four case variants of
"First Last" by exact match and therefore synthesizes instead. -/
theorem c3_entity_resolver_counterexample :
    resolveDriverId "Max" "Verstappen" aliasTableLastFirst
      = some "drv:max-verstappen"
    ∧ claimedResolveDriverId "Max" "Verstappen" aliasTableLastFirst
      = some "drv:ver-alias"
    ∧ resolveDriverId "Max" "Verstappen" aliasTableLastFirst
      ≠ claimedResolveDriverId "Max" "Verstappen" aliasTableLastFirst := by
  refine ⟨by decide, by decide, by decide⟩

lemma generate_driver_id_ne_empty {first last g : String}
    (h : generate_driver_id first last = some g) : g ≠ "" := by
  unfold generate_driver_id at h
  by_cases hc : first = "" ∨ last = ""
  · rw [if_pos hc] at h; exact absurd h (by simp)
  · rw [if_neg hc] at h
    have hg : g = "drv:" ++ pySanitize first ++ "-" ++ pySanitize last :=
      (Option.some.inj h).symm
    intro hemp
    have hlen := congrArg String.length (hemp ▸ hg)
    rw [String.length_append, String.length_append, String.length_append]
      at hlen
    have h0 : ("" : String).length = 0 := rfl
    have h4 : ("drv:" : String).length = 4 := rfl
    omega

/-- C3 amended: the resolver tries four exact-match case variants of
"First Last" (never "Last First"); a non-empty hit takes precedence over
synthesis — in particular a hit on the literal "First Last" alias always
wins — and when no variant hits, the id is synthesized by
`generate_driver_id`. -/
theorem c3_entity_resolver_amended (first last : String) (tbl : AliasTable) :
    (∀ id, resolve_driver_id_from_alias first last tbl = some id → id ≠ "" →
      resolveDriverId first last tbl = some id)
    ∧ (resolve_driver_id_from_alias first last tbl = none →
      resolveDriverId first last tbl = generate_driver_id first last)
    ∧ (∀ id, lookupAlias tbl (first ++ " " ++ last) = some id → id ≠ "" →
      resolveDriverId first last tbl = some id) := by
  have hfalsy : ∀ s : String, s ≠ "" → pyFalsy (some s) = false := by
    intro s hs
    simp [pyFalsy, hs]
  have hkey : ∀ id, resolve_driver_id_from_alias first last tbl = some id →
      id ≠ "" → resolveDriverId first last tbl = some id := by
    intro id hhit hne
    simp only [resolveDriverId, hhit, hfalsy id hne, Bool.false_eq_true,
      if_false]
  refine ⟨hkey, fun hmiss => ?_, fun id hhit hne => ?_⟩
  · simp only [resolveDriverId, hmiss, show pyFalsy none = true from rfl,
      eq_self_iff_true, if_true]
    rcases hg : generate_driver_id first last with _ | g
    · rfl
    · rw [hfalsy g (generate_driver_id_ne_empty hg)]
      rfl
  · apply hkey id _ hne
    unfold resolve_driver_id_from_alias full_name_variants
    simp only [List.findSome?_cons, hhit]

/-- Witness for the amended C3: a literal "Max Verstappen" alias entry takes
precedence over synthesis. -/
theorem c3_entity_resolver_amended_witness :
    resolveDriverId "Max" "Verstappen" [("Max Verstappen", "drv:override")]
      = some "drv:override" :=
  (c3_entity_resolver_amended "Max" "Verstappen"
    [("Max Verstappen", "drv:override")]).2.2 "drv:override"
    (by decide) (by decide)

/-! ## Lap Validity Deriver (backfill_lap_validity.py) -/

/-- `startsWithChars needle hay`: `needle` is an initial segment of `hay`. -/
def startsWithChars : List Char → List Char → Bool
  | [], _ => true
  | _ :: _, [] => false
  | a :: as, b :: bs => a = b && startsWithChars as bs

/-- `containChars needle hay`: `needle` occurs contiguously in `hay`. -/
def containChars (needle : List Char) : List Char → Bool
  | [] => needle.isEmpty
  | h :: t => startsWithChars needle (h :: t) || containChars needle t

/-- Case-insensitive substring test, modelling SQL
`LOWER(x) LIKE '%needle%'` and `x ILIKE '%needle%'`. -/
def containsCI (hay needle : String) : Bool :=
  containChars (needle.data.map Char.toLower) (hay.data.map Char.toLower)

/-- A silver.pit_stops row (the columns the deriver reads). -/
structure PitStop where
  session_id : String
  driver_id : String
  lap_id : Option Int
deriving DecidableEq

/-- A silver.race_control row (the columns the silver scripts read). -/
structure RaceControlMsg where
  session_id : String
  category : Option String
  flag : Option String
  scope : Option String
  message : Option String
  referenced_lap_id : Option Int
deriving DecidableEq

/-- A silver.laps row (the columns the deriver reads and writes). -/
structure LapRow where
  lap_id : Int
  session_id : String
  driver_id : String
  lap_number : Int
  is_pit_out_lap : Bool
  is_pit_in_lap : Bool
  is_valid : Bool
deriving DecidableEq

/-- `get_pit_in_lap_ids` / the deriver's subquery: lap ids referenced by some
pit stop (non-null only). -/
def pit_in_lap_ids (pits : List PitStop) : List Int :=
  pits.filterMap (fun p => p.lap_id)

/-- `get_deleted_lap_ids`: referenced lap ids of race-control messages whose
non-null text case-insensitively contains "deleted". -/
def get_deleted_lap_ids (msgs : List RaceControlMsg) : List Int :=
  msgs.filterMap (fun m =>
    match m.referenced_lap_id, m.message with
    | some lid, some txt => if containsCI txt "deleted" then some lid else none
    | _, _ => none)

/-- `update_lap_validity`: the six sequential whole-table UPDATE statements. -/
def update_lap_validity (laps : List LapRow) (pits : List PitStop)
    (deleted : List Int) : List LapRow :=
  let step1 := laps.map (fun l =>
    if (pit_in_lap_ids pits).contains l.lap_id
    then { l with is_pit_in_lap := true } else l)
  let step2 := step1.map (fun l =>
    if (pit_in_lap_ids pits).contains l.lap_id
    then l else { l with is_pit_in_lap := false })
  let step3 := step2.map (fun l => { l with is_valid := true })
  let step4 := step3.map (fun l =>
    if l.is_pit_out_lap then { l with is_valid := false } else l)
  let step5 := step4.map (fun l =>
    if l.is_pit_in_lap then { l with is_valid := false } else l)
  let step6 := step5.map (fun l =>
    if deleted.contains l.lap_id then { l with is_valid := false } else l)
  step6

/-- The per-row effect of the six UPDATE statements. -/
def applyValidityRules (pits : List PitStop) (deleted : List Int)
    (l : LapRow) : LapRow :=
  let l1 := if (pit_in_lap_ids pits).contains l.lap_id
    then { l with is_pit_in_lap := true } else l
  let l2 := if (pit_in_lap_ids pits).contains l1.lap_id
    then l1 else { l1 with is_pit_in_lap := false }
  let l3 := { l2 with is_valid := true }
  let l4 := if l3.is_pit_out_lap then { l3 with is_valid := false } else l3
  let l5 := if l4.is_pit_in_lap then { l4 with is_valid := false } else l4
  if deleted.contains l5.lap_id then { l5 with is_valid := false } else l5

lemma update_lap_validity_eq_map (laps : List LapRow) (pits : List PitStop)
    (deleted : List Int) :
    update_lap_validity laps pits deleted
      = laps.map (applyValidityRules pits deleted) := by
  simp only [update_lap_validity, List.map_map]
  rfl

lemma applyValidityRules_fields (pits : List PitStop) (deleted : List Int)
    (l : LapRow) :
    applyValidityRules pits deleted l =
      { l with
        is_pit_in_lap := (pit_in_lap_ids pits).contains l.lap_id,
        is_valid := !((l.is_pit_out_lap
          || (pit_in_lap_ids pits).contains l.lap_id)
          || deleted.contains l.lap_id) } := by
  by_cases hp : l.lap_id ∈ pit_in_lap_ids pits <;>
    cases ho : l.is_pit_out_lap <;>
      by_cases hd : l.lap_id ∈ deleted <;>
        simp [applyValidityRules, hp, ho, hd]

lemma contains_iff_mem {α : Type} [DecidableEq α] {l : List α} {a : α} :
    l.contains a = true ↔ a ∈ l := List.elem_iff

lemma mem_pit_in_lap_ids {pits : List PitStop} {i : Int} :
    i ∈ pit_in_lap_ids pits ↔ ∃ p ∈ pits, p.lap_id = some i := by
  simp [pit_in_lap_ids, List.mem_filterMap]

lemma mem_get_deleted_lap_ids {msgs : List RaceControlMsg} {i : Int} :
    i ∈ get_deleted_lap_ids msgs
      ↔ ∃ m ∈ msgs, m.referenced_lap_id = some i
          ∧ ∃ txt, m.message = some txt ∧ containsCI txt "deleted" = true := by
  simp only [get_deleted_lap_ids, List.mem_filterMap]
  constructor
  · rintro ⟨m, hm, hf⟩
    rcases hrl : m.referenced_lap_id with _ | lid <;>
      rcases hmsg : m.message with _ | txt <;>
        rw [hrl, hmsg] at hf
    · simp at hf
    · simp at hf
    · simp at hf
    · by_cases hc : containsCI txt "deleted" = true
      · simp only [hc, if_true] at hf
        have hf2 : lid = i := by simpa using hf
        exact ⟨m, hm, by rw [hrl, hf2], txt, hmsg, hc⟩
      · simp [hc] at hf
  · rintro ⟨m, hm, hrl, txt, hmsg, hc⟩
    refine ⟨m, hm, ?_⟩
    rw [hrl, hmsg]
    simp [hc]

/-- C4: after the Lap Validity Deriver runs, every lap row has
is_pit_in_lap true iff some pit stop references its id, and is_valid false iff
it is a pit-out lap, a pit-in lap, or referenced by a race-control message
whose text case-insensitively contains "deleted"; in particular any of the
three invalidating conditions forces invalidity. -/
theorem c4_lap_validity_derivation (laps : List LapRow) (pits : List PitStop)
    (msgs : List RaceControlMsg) (l : LapRow)
    (hl : l ∈ update_lap_validity laps pits (get_deleted_lap_ids msgs)) :
    (l.is_pit_in_lap = true ↔ ∃ p ∈ pits, p.lap_id = some l.lap_id)
    ∧ (l.is_valid = false
      ↔ (l.is_pit_out_lap = true ∨ l.is_pit_in_lap = true
        ∨ ∃ m ∈ msgs, m.referenced_lap_id = some l.lap_id
            ∧ ∃ txt, m.message = some txt ∧ containsCI txt "deleted" = true)) := by
  rw [update_lap_validity_eq_map] at hl
  obtain ⟨l0, hl0, rfl⟩ := List.mem_map.mp hl
  rw [applyValidityRules_fields]
  constructor
  · show (pit_in_lap_ids pits).contains l0.lap_id = true ↔ _
    rw [contains_iff_mem, mem_pit_in_lap_ids]
  · show (!((l0.is_pit_out_lap || (pit_in_lap_ids pits).contains l0.lap_id)
      || (get_deleted_lap_ids msgs).contains l0.lap_id)) = false ↔ _
    rw [Bool.not_eq_false']
    simp only [Bool.or_eq_true]
    rw [contains_iff_mem, contains_iff_mem, mem_pit_in_lap_ids,
      mem_get_deleted_lap_ids]
    exact or_assoc

/-- Witness for C4 at a concrete state: one pit-referenced lap, one deleted
lap, one pit-out lap. -/
theorem c4_lap_validity_derivation_witness :
    ∃ l ∈ update_lap_validity
      [⟨10, "s1", "d1", 5, false, false, true⟩]
      [⟨"s1", "d1", some 10⟩]
      (get_deleted_lap_ids [⟨"s1", some "Flag", none, none,
        some "CAR 1 LAP 5 DELETED", some 10⟩]),
      (l.is_pit_in_lap = true ↔ ∃ p ∈ [(⟨"s1", "d1", some 10⟩ : PitStop)],
        p.lap_id = some l.lap_id) := by
  refine ⟨applyValidityRules [⟨"s1", "d1", some 10⟩]
    (get_deleted_lap_ids [⟨"s1", some "Flag", none, none,
      some "CAR 1 LAP 5 DELETED", some 10⟩])
    ⟨10, "s1", "d1", 5, false, false, true⟩, by decide, ?_⟩
  exact (c4_lap_validity_derivation
    [⟨10, "s1", "d1", 5, false, false, true⟩]
    [⟨"s1", "d1", some 10⟩]
    [⟨"s1", some "Flag", none, none, some "CAR 1 LAP 5 DELETED", some 10⟩]
    _ (by decide)).1

/-! ## Points Awarding Engine (upsert_points_awarding.py)

Lap counts are integers; the source computes `completed / scheduled` in
floating point and compares against 0.25/0.50/0.75, which for lap counts is
exact — we model the ratio with rational arithmetic. -/

/-- `get_completion_band`: map the completed/scheduled ratio to a band, with
unknown or zero scheduled laps treated as fully completed. -/
def get_completion_band (completed : Int) (scheduled : Option Int) : String :=
  match scheduled with
  | none => "100_PCT"
  | some s =>
    if s = 0 then "100_PCT"
    else
      if (completed : ℚ) / (s : ℚ) ≥ 3 / 4 then "100_PCT"
      else if (completed : ℚ) / (s : ℚ) ≥ 1 / 2 then "50_to_75_PCT"
      else if (completed : ℚ) / (s : ℚ) ≥ 1 / 4 then "25_to_50_PCT"
      else "0_to_25_PCT"

/-- The first race-control query of `has_minimum_race_laps`: a track-scope
green flag whose non-null text does not contain "PIT EXIT OPEN". -/
def hasTrackGreenFlag (msgs : List RaceControlMsg) (sid : String) : Bool :=
  msgs.any (fun m =>
    m.session_id == sid && m.category == some "Flag" && m.flag == some "GREEN"
      && m.scope == some "Track"
      && match m.message with
         | some txt => !(containsCI txt "PIT EXIT OPEN")
         | none => false)

/-- The second race-control query of `has_minimum_race_laps`: a DRS-category
message whose text contains "DRS ENABLED". -/
def hasRaceDrsEnabled (msgs : List RaceControlMsg) (sid : String) : Bool :=
  msgs.any (fun m =>
    m.session_id == sid && m.category == some "Drs"
      && match m.message with
         | some txt => containsCI txt "DRS ENABLED"
         | none => false)

/-- `has_minimum_race_laps`: automatic for ≥ 3 or < 2 completed laps, else
the green-flag/DRS heuristic. -/
def has_minimum_race_laps (msgs : List RaceControlMsg) (sid : String)
    (completed : Int) : Bool :=
  if completed ≥ 3 then true
  else if completed < 2 then false
  else hasTrackGreenFlag msgs sid || hasRaceDrsEnabled msgs sid

/-- Lookup key of silver.points_system:
(season, race_type, completion_band, position, bonus). -/
abbrev PointsKey := Int × String × String × Option Int × Option String

/-- The loaded points_system rules as a keyed lookup (the `points_map` dict). -/
abbrev PointsMap := PointsKey → Option ℚ

/-- The session context assembled by `get_session_context`. -/
structure SessionContext where
  season : Int
  points_awarding : String
  completion_band : String
  has_minimum_race_laps : Bool
deriving DecidableEq

/-- A silver.results row (the columns the engine reads and writes). -/
structure ResultRow where
  session_id : String
  driver_id : String
  finish_position : Option Int
  status : String
  fastest_lap : Bool
  points : ℚ
deriving DecidableEq

/-- `get_session_context` restricted to its pure part: season and
points_awarding are read from the session, the band and the gate are derived. -/
def get_session_context (season : Int) (points_awarding : String)
    (scheduled : Option Int) (completed : Int) (msgs : List RaceControlMsg)
    (sid : String) : SessionContext :=
  { season := season
    points_awarding := points_awarding
    completion_band := get_completion_band completed scheduled
    has_minimum_race_laps := has_minimum_race_laps msgs sid completed }

/-- The base-points lookup of `calculate_points_for_session` (0 when the
finishing position is null or no rule matches). -/
def basePoints (ctx : SessionContext) (pm : PointsMap) (r : ResultRow) : ℚ :=
  match r.finish_position with
  | some pos =>
    (pm (ctx.season, ctx.points_awarding, ctx.completion_band,
      some pos, none)).getD 0
  | none => 0

/-- The fastest-lap rule key used by `calculate_points_for_session`. -/
def fastestLapKey (ctx : SessionContext) : PointsKey :=
  (ctx.season, ctx.points_awarding, ctx.completion_band, none,
    some "fastest_lap")

/-- The fastest-lap bonus of `calculate_points_for_session`: awarded only when
a rule exists, the result holds the fastest lap, and the finishing position is
non-null and at most 10. -/
def bonusPoints (ctx : SessionContext) (pm : PointsMap) (r : ResultRow) : ℚ :=
  match pm (fastestLapKey ctx), r.finish_position with
  | some b, some pos => if r.fastest_lap = true ∧ pos ≤ 10 then b else 0
  | _, _ => 0

/-- The points written for one result by `calculate_points_for_session`:
zero when the session awards no points, when the minimal band fails the
minimum-race-laps gate, or when the result did not finish; otherwise
base plus bonus. -/
def pointsForResult (ctx : SessionContext) (pm : PointsMap) (r : ResultRow) :
    ℚ :=
  if ctx.points_awarding = "none" then 0
  else if ctx.completion_band = "0_to_25_PCT"
      ∧ ctx.has_minimum_race_laps = false then 0
  else if r.status ≠ "finished" then 0
  else basePoints ctx pm r + bonusPoints ctx pm r

/-- `calculate_points_for_session`: overwrite every result's points. -/
def calculate_points_for_session (ctx : SessionContext) (pm : PointsMap)
    (results : List ResultRow) : List ResultRow :=
  results.map (fun r => { r with points := pointsForResult ctx pm r })

/-- C5: in the minimal completion band the minimum-race-laps gate is true
automatically at ≥ 3 completed laps, false automatically below 2, decided by
the green-flag/DRS heuristic at exactly 2; and a closed gate zeroes every
result of the session. -/
theorem c5_minimum_race_laps_gate
    (msgs : List RaceControlMsg) (sid : String) (completed : Int)
    (scheduled : Option Int) (season : Int) (pa : String) (pm : PointsMap)
    (results : List ResultRow)
    (hband : get_completion_band completed scheduled = "0_to_25_PCT")
    (_hpa : pa ≠ "none") :
    (completed ≥ 3 → has_minimum_race_laps msgs sid completed = true)
    ∧ (completed < 2 → has_minimum_race_laps msgs sid completed = false)
    ∧ (completed = 2 →
        (has_minimum_race_laps msgs sid completed = true
          ↔ hasTrackGreenFlag msgs sid = true
            ∨ hasRaceDrsEnabled msgs sid = true))
    ∧ (has_minimum_race_laps msgs sid completed = false →
        ∀ r ∈ calculate_points_for_session
          (get_session_context season pa scheduled completed msgs sid)
          pm results, r.points = 0) := by
  refine ⟨fun h3 => ?_, fun h2 => ?_, fun h2 => ?_, fun hgate r hr => ?_⟩
  · rw [has_minimum_race_laps, if_pos h3]
  · rw [has_minimum_race_laps, if_neg (by omega), if_pos h2]
  · rw [has_minimum_race_laps, if_neg (by omega), if_neg (by omega)]
    exact iff_of_eq (Bool.or_eq_true _ _)
  · obtain ⟨r0, _, rfl⟩ := List.mem_map.mp hr
    show pointsForResult _ _ _ = 0
    by_cases hp : pa = "none"
    · simp [pointsForResult, get_session_context, hp]
    · simp [pointsForResult, get_session_context, hp, hband, hgate]

/-- Witness for C5: season 2024, race category, 50 scheduled laps but only 2
completed, no green-flag/DRS message: band is minimal, the gate closes, and a
first-place finished result with fastest lap still scores 0. -/
theorem c5_minimum_race_laps_gate_witness :
    get_completion_band 2 (some 50) = "0_to_25_PCT"
    ∧ ("race" : String) ≠ "none"
    ∧ (has_minimum_race_laps [] "s1" 2 = true
        ↔ hasTrackGreenFlag [] "s1" = true ∨ hasRaceDrsEnabled [] "s1" = true)
    ∧ (∀ r ∈ calculate_points_for_session
        (get_session_context 2024 "race" (some 50) 2 [] "s1")
        (fun _ => none)
        [⟨"s1", "drv:a", some 1, "finished", true, 25⟩], r.points = 0) :=
  ⟨by norm_num [get_completion_band], by decide,
   (c5_minimum_race_laps_gate [] "s1" 2 (some 50) 2024 "race" (fun _ => none)
     [⟨"s1", "drv:a", some 1, "finished", true, 25⟩]
     (by norm_num [get_completion_band]) (by decide)).2.2.1 rfl,
   (c5_minimum_race_laps_gate [] "s1" 2 (some 50) 2024 "race" (fun _ => none)
     [⟨"s1", "drv:a", some 1, "finished", true, 25⟩]
     (by norm_num [get_completion_band]) (by decide)).2.2.2 (by decide)⟩

/-- C6: in a scored session a result gets the fastest-lap bonus exactly when a
bonus rule exists, the result holds the fastest lap, and its position is at
most 10; a non-finished result scores 0 in total; otherwise total points are
base plus bonus. -/
theorem c6_fastest_lap_bonus (ctx : SessionContext) (pm : PointsMap)
    (r : ResultRow)
    (hpa : ctx.points_awarding ≠ "none")
    (hgate : ¬(ctx.completion_band = "0_to_25_PCT"
      ∧ ctx.has_minimum_race_laps = false)) :
    (r.status ≠ "finished" → pointsForResult ctx pm r = 0)
    ∧ (r.status = "finished" →
        pointsForResult ctx pm r = basePoints ctx pm r + bonusPoints ctx pm r)
    ∧ (∀ b pos, pm (fastestLapKey ctx) = some b → r.finish_position = some pos →
        (r.fastest_lap = true ∧ pos ≤ 10 → bonusPoints ctx pm r = b)
        ∧ (¬(r.fastest_lap = true ∧ pos ≤ 10) → bonusPoints ctx pm r = 0))
    ∧ ((pm (fastestLapKey ctx) = none ∨ r.finish_position = none) →
        bonusPoints ctx pm r = 0) := by
  refine ⟨fun hnf => ?_, fun hf => ?_, fun b pos hb hpos => ⟨fun hc => ?_,
    fun hc => ?_⟩, fun hz => ?_⟩
  · rw [pointsForResult, if_neg hpa, if_neg hgate, if_pos hnf]
  · rw [pointsForResult, if_neg hpa, if_neg hgate,
      if_neg (by simp [hf])]
  · rw [bonusPoints, hb, hpos]
    exact if_pos hc
  · rw [bonusPoints, hb, hpos]
    exact if_neg hc
  · rw [bonusPoints]
    rcases hz with hz | hz
    · rw [hz]
    · rw [hz]
      rcases hfl : pm (fastestLapKey ctx) with _ | b
      · rfl
      · rfl

/-- A concrete full-band race context for the C6 witness. -/
def ctxExample : SessionContext := ⟨2024, "race", "100_PCT", true⟩

/-- A concrete rule set for the C6 witness: 1 point for P10, a 1-point
fastest-lap bonus. -/
def pmExample : PointsMap := fun k =>
  if k = (2024, "race", "100_PCT", none, some "fastest_lap") then some 1
  else if k = (2024, "race", "100_PCT", some 10, none) then some 1
  else none

/-- Witness for C6: an 11th-place fastest lap gets no bonus, a 10th-place
fastest lap gets the configured bonus, and a 10th-place DNF scores 0 in
total despite the fastest lap. -/
theorem c6_fastest_lap_bonus_witness :
    bonusPoints ctxExample pmExample
      ⟨"s1", "drv:a", some 10, "finished", true, 0⟩ = 1
    ∧ bonusPoints ctxExample pmExample
      ⟨"s1", "drv:b", some 11, "finished", true, 0⟩ = 0
    ∧ pointsForResult ctxExample pmExample
      ⟨"s1", "drv:c", some 10, "dnf", true, 0⟩ = 0
    ∧ pointsForResult ctxExample pmExample
      ⟨"s1", "drv:a", some 10, "finished", true, 0⟩
      = basePoints ctxExample pmExample
          ⟨"s1", "drv:a", some 10, "finished", true, 0⟩
        + bonusPoints ctxExample pmExample
          ⟨"s1", "drv:a", some 10, "finished", true, 0⟩ :=
  ⟨((c6_fastest_lap_bonus ctxExample pmExample
      ⟨"s1", "drv:a", some 10, "finished", true, 0⟩ (by decide)
      (by decide)).2.2.1 1 10 rfl rfl).1 (by decide),
   ((c6_fastest_lap_bonus ctxExample pmExample
      ⟨"s1", "drv:b", some 11, "finished", true, 0⟩ (by decide)
      (by decide)).2.2.1 1 11 rfl rfl).2 (by decide),
   (c6_fastest_lap_bonus ctxExample pmExample
      ⟨"s1", "drv:c", some 10, "dnf", true, 0⟩ (by decide)
      (by decide)).1 (by decide),
   (c6_fastest_lap_bonus ctxExample pmExample
      ⟨"s1", "drv:a", some 10, "finished", true, 0⟩ (by decide)
      (by decide)).2.1 rfl⟩

/-! ## Keyed upserts and composite-key uniqueness
(upsert_results.py, upsert_driver_numbers_by_season.py) -/

/-- One `INSERT ... ON CONFLICT (key) DO UPDATE` against an association-list
store: on conflict the row is rewritten in place with `merge old new`, else a
new row is appended. -/
def upsertMerge {K V : Type} [DecidableEq K] (merge : V → V → V)
    (store : List (K × V)) (k : K) (v : V) : List (K × V) :=
  if store.any (fun p => p.1 == k) then
    store.map (fun p => if p.1 = k then (k, merge p.2 v) else p)
  else store ++ [(k, v)]

/-- Composite key of silver.results: (session_id, driver_id). -/
abbrev ResultKey := String × String

/-- Composite key of silver.driver_numbers_by_season: (driver_id, season). -/
abbrev SeasonNumberKey := String × Int

/-- The non-key columns of silver.results written by `upsert_results`. -/
structure ResultPayload where
  finish_position : Option Int
  gap_to_leader_ms : Option Int
  duration_ms : Option Int
  laps_completed : Option Int
  status : String
  points : ℚ
  best_lap_ms : Option Int
  fastest_lap : Bool
  grid_position : Option Int
  quali_lap_ms : Option Int
deriving DecidableEq

/-- `upsert_results`: every record runs the
`ON CONFLICT (session_id, driver_id) DO UPDATE` statement, whose SET list
overwrites every payload column except points. -/
def upsert_results (store : List (ResultKey × ResultPayload))
    (batch : List (ResultKey × ResultPayload)) :
    List (ResultKey × ResultPayload) :=
  batch.foldl (fun s p =>
    upsertMerge (fun old new => { new with points := old.points }) s p.1 p.2)
    store

/-- The row-application part of `upsert_driver_numbers`: every resolved
(driver_id, season) ↦ number runs the
`ON CONFLICT (driver_id, season) DO UPDATE SET driver_number` statement. -/
def upsert_driver_numbers_rows (store : List (SeasonNumberKey × Int))
    (batch : List (SeasonNumberKey × Int)) : List (SeasonNumberKey × Int) :=
  batch.foldl (fun s p => upsertMerge (fun _ new => new) s p.1 p.2) store

/-- Keys are pairwise distinct in the store. -/
abbrev UniqueKeys {K V : Type} (store : List (K × V)) : Prop :=
  store.Pairwise (fun a b => a.1 ≠ b.1)

lemma upsertMerge_uniqueKeys {K V : Type} [DecidableEq K] (merge : V → V → V)
    {store : List (K × V)} (k : K) (v : V) (h : UniqueKeys store) :
    UniqueKeys (upsertMerge merge store k v) := by
  unfold upsertMerge
  by_cases hc : store.any (fun p => p.1 == k) = true
  · rw [if_pos hc]
    refine List.Pairwise.map _ ?_ h
    intro a b hab
    by_cases ha : a.1 = k
    · by_cases hb : b.1 = k
      · exact absurd (ha.trans hb.symm) hab
      · rw [if_pos ha, if_neg hb]
        exact fun hkb => hb hkb.symm
    · by_cases hb : b.1 = k
      · rw [if_neg ha, if_pos hb]
        exact ha
      · rw [if_neg ha, if_neg hb]
        exact hab
  · rw [if_neg hc]
    refine List.pairwise_append.mpr ⟨h, List.pairwise_singleton _ _, ?_⟩
    intro a ha b hb
    rw [List.mem_singleton] at hb
    subst hb
    intro heq
    apply hc
    rw [List.any_eq_true]
    exact ⟨a, ha, by simp [heq]⟩

lemma foldl_upsertMerge_uniqueKeys {K V : Type} [DecidableEq K]
    (merge : V → V → V) (batch : List (K × V)) :
    ∀ store : List (K × V), UniqueKeys store →
      UniqueKeys (batch.foldl (fun s p => upsertMerge merge s p.1 p.2) store) := by
  induction batch with
  | nil => intro store h; exact h
  | cons b bs ih =>
    intro store h
    rw [List.foldl_cons]
    exact ih _ (upsertMerge_uniqueKeys merge b.1 b.2 h)

/-- C7: composite-key uniqueness is preserved: starting from stores with
unique (session, driver) and (driver, season) keys, any batch of result
upserts and any batch of resolved driver-number upserts leave at most one
Result row per (session, driver) and one SeasonCarNumber row per
(driver, season) — on key conflict the row is updated in place, never
duplicated. -/
theorem c7_composite_key_uniqueness
    (resultsStore : List (ResultKey × ResultPayload))
    (resultsBatch : List (ResultKey × ResultPayload))
    (numbersStore : List (SeasonNumberKey × Int))
    (numbersBatch : List (SeasonNumberKey × Int))
    (h1 : UniqueKeys resultsStore) (h2 : UniqueKeys numbersStore) :
    UniqueKeys (upsert_results resultsStore resultsBatch)
    ∧ UniqueKeys (upsert_driver_numbers_rows numbersStore numbersBatch) :=
  ⟨foldl_upsertMerge_uniqueKeys _ resultsBatch resultsStore h1,
   foldl_upsertMerge_uniqueKeys _ numbersBatch numbersStore h2⟩

/-- A concrete result payload for witnesses. -/
def resultPayloadExample : ResultPayload :=
  ⟨some 1, some 0, some 5400000, some 57, "finished", 0, some 90000, true,
    some 1, some 89000⟩

/-- Witness for C7: a store holding one result row and one car-number row
stays uniquely keyed after a batch that both updates the existing keys and
inserts fresh ones. -/
theorem c7_composite_key_uniqueness_witness :
    UniqueKeys (upsert_results [(("s1", "d1"), resultPayloadExample)]
      [(("s1", "d1"), resultPayloadExample),
       (("s1", "d2"), resultPayloadExample)])
    ∧ UniqueKeys (upsert_driver_numbers_rows [(("d1", 2024), 44)]
      [(("d1", 2024), 1), (("d2", 2024), 63)]) :=
  c7_composite_key_uniqueness
    [(("s1", "d1"), resultPayloadExample)]
    [(("s1", "d1"), resultPayloadExample), (("s1", "d2"), resultPayloadExample)]
    [(("d1", 2024), 44)] [(("d1", 2024), 1), (("d2", 2024), 63)]
    (by decide) (by decide)

/-! ## Attach-attribute flows
(upsert_driver_numbers_by_season.py, upsert_drivers.py) -/

/-- The validation filter of `upsert_driver_numbers`: keep only records whose
resolved driver_id is present in silver.drivers. -/
def validNumberRecords (driversTable : List String)
    (records : List NumberObs) : List NumberObs :=
  records.filter (fun r => driversTable.contains r.driver_id)

/-- The distinct (driver_id, season) keys of the validated records, in first
occurrence order (the keys of the `resolved` dict). -/
def resolvedNumberKeys (records : List NumberObs) : List SeasonNumberKey :=
  (records.map (fun r => (r.driver_id, r.season))).dedup

/-- The rows handed to the driver-number upsert: one resolved car number per
validated (driver_id, season) key. -/
def driverNumbersBatch (driversTable : List String)
    (records : List NumberObs) : List (SeasonNumberKey × Int) :=
  (resolvedNumberKeys (validNumberRecords driversTable records)).filterMap
    (fun k => (resolve_driver_number_conflicts
      (validNumberRecords driversTable records) k.1 k.2).map (fun n => (k, n)))

/-- `upsert_driver_numbers`: validate against silver.drivers, resolve
conflicts, then upsert the resolved rows. -/
def upsert_driver_numbers (driversTable : List String)
    (records : List NumberObs) (store : List (SeasonNumberKey × Int)) :
    List (SeasonNumberKey × Int) :=
  upsert_driver_numbers_rows store (driverNumbersBatch driversTable records)

/-- A bronze driver-team record consumed by `upsert_driver_teams_by_session`. -/
structure TeamRecord where
  openf1_session_key : String
  driver_number : String
  team_name : String
deriving DecidableEq

/-- Digits-to-number accumulator for the Python `int()` model. -/
def digitsToNat (l : List Char) : Nat :=
  l.foldl (fun acc c => acc * 10 + (c.toNat - '0'.toNat)) 0

/-- `parse_int` of upsert_drivers.py: `None` for empty/blank input, else
Python `int(value)` (a signed decimal literal), `None` when unparsable. -/
def parseIntStr (s : String) : Option Int :=
  let t := pyStrip s
  if t = "" then none
  else
    match t.data with
    | '-' :: rest =>
      if rest ≠ [] ∧ rest.all Char.isDigit then some (-(digitsToNat rest : Int))
      else none
    | '+' :: rest =>
      if rest ≠ [] ∧ rest.all Char.isDigit then some (digitsToNat rest : Int)
      else none
    | l =>
      if l.all Char.isDigit then some (digitsToNat l : Int) else none

/-- A non-empty (Python-truthy) string, else `none`. -/
def nonEmptyStr (s : String) : Option String :=
  if s = "" then none else some s

/-- The per-record resolution of `upsert_driver_teams_by_session`: parse the
driver number, then resolve session, driver and team ids in order; any
failure (or falsy id) drops the record. -/
def resolveTeamRow (driverIdMap : String × Int → Option String)
    (teamIdMap sessionIdMap : String → Option String) (r : TeamRecord) :
    Option (String × String × String) :=
  (parseIntStr r.driver_number).bind (fun num =>
    ((sessionIdMap r.openf1_session_key).bind nonEmptyStr).bind (fun sid =>
      ((driverIdMap (r.openf1_session_key, num)).bind nonEmptyStr).bind
        (fun did =>
          ((teamIdMap (pyStrip r.team_name)).bind nonEmptyStr).map
            (fun tid => (sid, did, tid)))))

/-- `upsert_driver_teams_by_session`: the (session_id, driver_id, team_id)
rows that reach the INSERT, unresolvable records skipped. -/
def upsert_driver_teams_by_session (records : List TeamRecord)
    (driverIdMap : String × Int → Option String)
    (teamIdMap sessionIdMap : String → Option String) :
    List (String × String × String) :=
  records.filterMap (resolveTeamRow driverIdMap teamIdMap sessionIdMap)

lemma driverNumbersBatch_mem_driversTable
    {driversTable : List String} {records : List NumberObs}
    {row : SeasonNumberKey × Int}
    (h : row ∈ driverNumbersBatch driversTable records) :
    row.1.1 ∈ driversTable := by
  obtain ⟨k, hk, hres⟩ := List.mem_filterMap.mp h
  obtain ⟨n, _, heq⟩ := Option.map_eq_some'.mp hres
  obtain ⟨r, hr, hkey⟩ := List.mem_map.mp (List.mem_dedup.mp hk)
  have hvalid := List.mem_filter.mp hr
  have hdid : r.driver_id ∈ driversTable :=
    contains_iff_mem.mp (by simpa using hvalid.2)
  rw [← heq]
  show k.1 ∈ driversTable
  rw [← hkey]
  exact hdid

lemma upsertMerge_key_sub {K V : Type} [DecidableEq K] (merge : V → V → V)
    (store : List (K × V)) (k : K) (v : V) {row : K × V}
    (h : row ∈ upsertMerge merge store k v) :
    row.1 ∈ store.map Prod.fst ∨ row.1 = k := by
  unfold upsertMerge at h
  by_cases hc : store.any (fun p => p.1 == k) = true
  · rw [if_pos hc] at h
    obtain ⟨p, hp, hpe⟩ := List.mem_map.mp h
    by_cases hpk : p.1 = k
    · right
      rw [← hpe, if_pos hpk]
    · left
      rw [← hpe, if_neg hpk]
      exact List.mem_map.mpr ⟨p, hp, rfl⟩
  · rw [if_neg hc] at h
    rcases List.mem_append.mp h with hl | hr
    · exact Or.inl (List.mem_map.mpr ⟨row, hl, rfl⟩)
    · right
      rw [List.mem_singleton] at hr
      rw [hr]

lemma foldl_upsertMerge_key_sub {K V : Type} [DecidableEq K]
    (merge : V → V → V) (batch : List (K × V)) :
    ∀ (store : List (K × V)) (row : K × V),
      row ∈ batch.foldl (fun s p => upsertMerge merge s p.1 p.2) store →
      row.1 ∈ store.map Prod.fst ∨ row.1 ∈ batch.map Prod.fst := by
  induction batch with
  | nil =>
    intro store row h
    exact Or.inl (List.mem_map.mpr ⟨row, h, rfl⟩)
  | cons b bs ih =>
    intro store row h
    rw [List.foldl_cons] at h
    rcases ih _ row h with hs | hb
    · rcases List.mem_map.mp hs with ⟨p, hp, hpe⟩
      rcases upsertMerge_key_sub merge store b.1 b.2 hp with hps | hpk
      · exact Or.inl (hpe ▸ hps)
      · exact Or.inr (by
          rw [List.map_cons, ← hpe, hpk]
          exact List.mem_cons_self _ _)
    · exact Or.inr (by
        rw [List.map_cons]
        exact List.mem_cons_of_mem _ hb)

/-- C8: attach-attribute flows never fabricate a driver: every resolved
car-number row is for a driver already in silver.drivers, every key in the
upserted car-number table is either pre-existing or backed by silver.drivers,
and (with the driver-id-by-session lookup sound for the Driver table) every
driver-team row references an existing driver. -/
theorem c8_no_driver_fabrication
    (driversTable : List String) (records : List NumberObs)
    (store : List (SeasonNumberKey × Int)) (teamRecords : List TeamRecord)
    (driverIdMap : String × Int → Option String)
    (teamIdMap sessionIdMap : String → Option String)
    (hview : ∀ k id, driverIdMap k = some id → id ∈ driversTable) :
    (∀ row ∈ driverNumbersBatch driversTable records, row.1.1 ∈ driversTable)
    ∧ (∀ row ∈ upsert_driver_numbers driversTable records store,
        row.1 ∈ store.map Prod.fst ∨ row.1.1 ∈ driversTable)
    ∧ (∀ row ∈ upsert_driver_teams_by_session teamRecords driverIdMap
        teamIdMap sessionIdMap, row.2.1 ∈ driversTable) := by
  refine ⟨fun row h => driverNumbersBatch_mem_driversTable h,
    fun row h => ?_, fun row h => ?_⟩
  · rcases foldl_upsertMerge_key_sub _ _ store row h with hs | hb
    · exact Or.inl hs
    · obtain ⟨p, hp, hpe⟩ := List.mem_map.mp hb
      exact Or.inr (hpe ▸ driverNumbersBatch_mem_driversTable hp)
  · obtain ⟨r, _, hres⟩ := List.mem_filterMap.mp h
    unfold resolveTeamRow at hres
    obtain ⟨num, _, hres⟩ := Option.bind_eq_some.mp hres
    obtain ⟨sid, _, hres⟩ := Option.bind_eq_some.mp hres
    obtain ⟨did, hdid, hres⟩ := Option.bind_eq_some.mp hres
    obtain ⟨did0, hdid0, hne⟩ := Option.bind_eq_some.mp hdid
    obtain ⟨tid, _, heq⟩ := Option.map_eq_some'.mp hres
    have hdd : did = did0 := by
      unfold nonEmptyStr at hne
      by_cases hz : did0 = ""
      · rw [if_pos hz] at hne
        exact absurd hne (by simp)
      · rw [if_neg hz] at hne
        exact (Option.some.inj hne).symm
    have : row.2.1 = did := by rw [← heq]
    rw [this, hdd]
    exact hview _ _ hdid0

/-- Witness for C8: one valid and one unknown driver in the records, a team
record resolved through a sound lookup. -/
theorem c8_no_driver_fabrication_witness :
    (∀ row ∈ driverNumbersBatch ["drv:known"]
      [⟨"drv:known", 2024, 44, "race"⟩, ⟨"drv:ghost", 2024, 7, "race"⟩],
      row.1.1 ∈ ["drv:known"])
    ∧ (∀ row ∈ upsert_driver_numbers ["drv:known"]
        [⟨"drv:known", 2024, 44, "race"⟩, ⟨"drv:ghost", 2024, 7, "race"⟩] [],
        row.1 ∈ ([] : List (SeasonNumberKey × Int)).map Prod.fst
          ∨ row.1.1 ∈ ["drv:known"])
    ∧ (∀ row ∈ upsert_driver_teams_by_session
        [⟨"9001", "44", "Red Bull Racing"⟩]
        (fun k => if k = ("9001", 44) then some "drv:known" else none)
        (fun t => if t = "Red Bull Racing" then some "team:rbr" else none)
        (fun s => if s = "9001" then some "sess:1" else none),
        row.2.1 ∈ ["drv:known"]) :=
  c8_no_driver_fabrication ["drv:known"]
    [⟨"drv:known", 2024, 44, "race"⟩, ⟨"drv:ghost", 2024, 7, "race"⟩] []
    [⟨"9001", "44", "Red Bull Racing"⟩]
    (fun k => if k = ("9001", 44) then some "drv:known" else none)
    (fun t => if t = "Red Bull Racing" then some "team:rbr" else none)
    (fun s => if s = "9001" then some "sess:1" else none)
    (by
      intro k id hk
      have hk2 : (if k = ("9001", 44) then some "drv:known" else none)
          = some id := hk
      by_cases hkk : k = ("9001", 44)
      · rw [if_pos hkk] at hk2
        rw [← Option.some.inj hk2]
        exact List.mem_singleton.mpr rfl
      · rw [if_neg hkk] at hk2
        exact absurd hk2 (by simp))

/-! ## Row-level Dedup/Upsert Engine for laps (upsert_laps.py) -/

/-- The natural key of a silver.laps row:
(session_id, driver_id, lap_number, date_start). The timestamp is kept as its
canonical text form. -/
structure LapKey where
  session_id : String
  driver_id : String
  lap_number : Int
  date_start : String
deriving DecidableEq

/-- The non-key columns written by `upsert_laps` (the UPDATE's SET list). -/
structure LapPayload where
  lap_duration_ms : Option Int
  duration_s1_ms : Option Int
  duration_s2_ms : Option Int
  duration_s3_ms : Option Int
  i1_speed_kph : Option ℚ
  i2_speed_kph : Option ℚ
  st_speed_kph : Option ℚ
  is_pit_out_lap : Option Bool
  s1_segments : Option String
  s2_segments : Option String
  s3_segments : Option String
deriving DecidableEq

/-- A stored silver.laps row: auto-generated lap_id, natural key, payload,
and the two derived flags. -/
structure StoredLap where
  lap_id : Nat
  key : LapKey
  payload : LapPayload
  is_pit_in_lap : Bool
  is_valid : Bool
deriving DecidableEq

/-- The silver.laps table plus its bigserial sequence. -/
structure LapStore where
  rows : List StoredLap
  nextId : Nat
deriving DecidableEq

/-- The batch existence check of `upsert_laps`: the `existing_laps` dict maps
each incoming natural key to the lap_id of the last fetched matching row
(rows fetched in store order). -/
def existingLapId (st : LapStore) (k : LapKey) : Option Nat :=
  ((st.rows.filter (fun r => r.key = k)).getLast?).map (fun r => r.lap_id)

/-- One batched UPDATE: rewrite the payload of the row with the given lap_id. -/
def applyLapUpdate (rows : List StoredLap) (id : Nat) (p : LapPayload) :
    List StoredLap :=
  rows.map (fun r => if r.lap_id = id then { r with payload := p } else r)

/-- `records_to_insert`: incoming records whose key is absent from the store. -/
def lapToInsert (st : LapStore) (recs : List (LapKey × LapPayload)) :
    List (LapKey × LapPayload) :=
  recs.filter (fun r => (existingLapId st r.1).isNone)

/-- `records_to_update`: (lap_id, payload) pairs for incoming records whose
key is present. -/
def lapUpdates (st : LapStore) (recs : List (LapKey × LapPayload)) :
    List (Nat × LapPayload) :=
  recs.filterMap (fun r => (existingLapId st r.1).map (fun id => (id, r.2)))

/-- The INSERT of `upsert_laps`: fresh consecutive lap_ids, payload from the
record, and the literal column values `is_pit_in_lap = FALSE, is_valid =
TRUE`. -/
def insertedLapRows (nextId : Nat) :
    List (LapKey × LapPayload) → List StoredLap
  | [] => []
  | r :: rs =>
    ⟨nextId, r.1, r.2, false, true⟩ :: insertedLapRows (nextId + 1) rs

/-- `upsert_laps`: batch existence check, partition into inserts and updates,
append the inserts, then apply the updates. -/
def upsert_laps (st : LapStore) (recs : List (LapKey × LapPayload)) :
    LapStore :=
  { rows := (lapUpdates st recs).foldl
      (fun rs u => applyLapUpdate rs u.1 u.2)
      (st.rows ++ insertedLapRows st.nextId (lapToInsert st recs))
    nextId := st.nextId + (lapToInsert st recs).length }

/-- Store well-formedness: ids below the sequence value, ids pairwise
distinct, natural keys pairwise distinct. -/
abbrev LapStoreWF (st : LapStore) : Prop :=
  (∀ r ∈ st.rows, r.lap_id < st.nextId)
  ∧ st.rows.Pairwise (fun a b => a.lap_id ≠ b.lap_id)
  ∧ st.rows.Pairwise (fun a b => a.key ≠ b.key)

/-! ### The fold of updates as a per-row payload rewrite -/

/-- The payload the update sequence leaves on a row with the given lap_id
(the last matching update wins), if any update matches at all. -/
def lastUpdate (id : Nat) : List (Nat × LapPayload) → Option LapPayload
  | [] => none
  | u :: us =>
    match lastUpdate id us with
    | some p => some p
    | none => if u.1 = id then some u.2 else none

/-- Net effect of the update sequence on a single row. -/
def payloadResolve (updates : List (Nat × LapPayload)) (r : StoredLap) :
    StoredLap :=
  match lastUpdate r.lap_id updates with
  | some p => { r with payload := p }
  | none => r

lemma payloadResolve_eq (updates : List (Nat × LapPayload)) (r : StoredLap) :
    payloadResolve updates r
      = { r with payload := (lastUpdate r.lap_id updates).getD r.payload } := by
  cases h : lastUpdate r.lap_id updates <;> simp [payloadResolve, h]

lemma lastUpdate_cons (id : Nat) (u : Nat × LapPayload)
    (us : List (Nat × LapPayload)) :
    lastUpdate id (u :: us)
      = match lastUpdate id us with
        | some p => some p
        | none => if u.1 = id then some u.2 else none := rfl

lemma payloadResolve_step (us : List (Nat × LapPayload))
    (u : Nat × LapPayload) (r : StoredLap) :
    payloadResolve us (if r.lap_id = u.1 then { r with payload := u.2 } else r)
      = payloadResolve (u :: us) r := by
  by_cases h : r.lap_id = u.1
  · cases hus : lastUpdate r.lap_id us <;>
      simp [payloadResolve_eq, lastUpdate_cons, hus, h.symm]
  · cases hus : lastUpdate r.lap_id us <;>
      simp [payloadResolve_eq, lastUpdate_cons, hus, h, Ne.symm h]

lemma foldl_applyLapUpdate (updates : List (Nat × LapPayload)) :
    ∀ rows : List StoredLap,
      updates.foldl (fun rs u => applyLapUpdate rs u.1 u.2) rows
        = rows.map (payloadResolve updates) := by
  induction updates with
  | nil =>
    intro rows
    rw [List.foldl_nil]
    have hid : payloadResolve [] = id := funext fun r => rfl
    rw [hid, List.map_id]
  | cons u us ih =>
    intro rows
    rw [List.foldl_cons, ih, applyLapUpdate, List.map_map]
    apply List.map_congr_left
    intro r _
    exact payloadResolve_step us u r

lemma payloadResolve_lap_id (updates : List (Nat × LapPayload))
    (r : StoredLap) : (payloadResolve updates r).lap_id = r.lap_id := by
  rw [payloadResolve_eq]

lemma payloadResolve_key (updates : List (Nat × LapPayload))
    (r : StoredLap) : (payloadResolve updates r).key = r.key := by
  rw [payloadResolve_eq]

lemma payloadResolve_flags (updates : List (Nat × LapPayload))
    (r : StoredLap) :
    (payloadResolve updates r).is_pit_in_lap = r.is_pit_in_lap
    ∧ (payloadResolve updates r).is_valid = r.is_valid := by
  rw [payloadResolve_eq]
  exact ⟨rfl, rfl⟩

/-! ### Inserted rows and the existence map -/

lemma insertedLapRows_length (n : Nat) (rs : List (LapKey × LapPayload)) :
    (insertedLapRows n rs).length = rs.length := by
  induction rs generalizing n with
  | nil => rfl
  | cons r t ih => simp [insertedLapRows, ih]

lemma mem_insertedLapRows {rs : List (LapKey × LapPayload)} {row : StoredLap} :
    ∀ {n : Nat}, row ∈ insertedLapRows n rs →
      n ≤ row.lap_id ∧ row.lap_id < n + rs.length
      ∧ row.is_pit_in_lap = false ∧ row.is_valid = true
      ∧ ∃ rec ∈ rs, row.key = rec.1 ∧ row.payload = rec.2 := by
  induction rs with
  | nil => intro n h; exact absurd h (List.not_mem_nil _)
  | cons r t ih =>
    intro n h
    rw [insertedLapRows] at h
    rcases List.mem_cons.mp h with hr | ht
    · subst hr
      exact ⟨Nat.le_refl _, by simp, rfl, rfl, r, List.mem_cons_self r t,
        rfl, rfl⟩
    · obtain ⟨h1, h2, h3, h4, rec, hrec, h5⟩ := ih ht
      exact ⟨by omega, by simp at h2 ⊢; omega, h3, h4, rec,
        List.mem_cons_of_mem _ hrec, h5⟩

lemma insertedLapRows_countP_key (k : LapKey)
    (rs : List (LapKey × LapPayload)) :
    ∀ n : Nat, (insertedLapRows n rs).countP (fun row => row.key = k)
      = rs.countP (fun rec => rec.1 = k) := by
  induction rs with
  | nil => intro n; rfl
  | cons r t ih =>
    intro n
    rw [insertedLapRows, List.countP_cons, List.countP_cons, ih]

lemma insertedLapRows_exists_row {rs : List (LapKey × LapPayload)}
    {rec : LapKey × LapPayload} (hrec : rec ∈ rs) :
    ∀ n : Nat, ∃ row ∈ insertedLapRows n rs,
      row.key = rec.1 ∧ row.payload = rec.2
      ∧ row.is_pit_in_lap = false ∧ row.is_valid = true := by
  induction rs with
  | nil => exact absurd hrec (List.not_mem_nil _)
  | cons r t ih =>
    intro n
    rcases List.mem_cons.mp hrec with hr | ht
    · subst hr
      exact ⟨⟨n, rec.1, rec.2, false, true⟩,
        List.mem_cons_self _ _, rfl, rfl, rfl, rfl⟩
    · obtain ⟨row, hrow, hp⟩ := ih ht (n + 1)
      exact ⟨row, List.mem_cons_of_mem _ hrow, hp⟩

lemma existingLapId_eq_none_iff (st : LapStore) (k : LapKey) :
    existingLapId st k = none ↔ ∀ r ∈ st.rows, r.key ≠ k := by
  unfold existingLapId
  rw [Option.map_eq_none', List.getLast?_eq_none_iff, List.filter_eq_nil_iff]
  constructor
  · intro h r hr hk
    exact h r hr (by simp [hk])
  · intro h r hr hk
    exact h r hr (by simpa using hk)

lemma existingLapId_some_mem {st : LapStore} {k : LapKey} {id : Nat}
    (h : existingLapId st k = some id) :
    ∃ r ∈ st.rows, r.key = k ∧ r.lap_id = id := by
  unfold existingLapId at h
  obtain ⟨r, hr, hid⟩ := Option.map_eq_some'.mp h
  have hmem := List.mem_of_getLast?_eq_some hr
  have := List.mem_filter.mp hmem
  exact ⟨r, this.1, by simpa using this.2, hid⟩

lemma pairwise_countP_le_one {α β : Type} [DecidableEq β] (f : α → β) (v : β) :
    ∀ {l : List α}, l.Pairwise (fun a b => f a ≠ f b) →
      l.countP (fun r => f r = v) ≤ 1 := by
  intro l
  induction l with
  | nil => intro _; simp
  | cons a t ih =>
    intro h
    rw [List.countP_cons]
    rcases List.pairwise_cons.mp h with ⟨ha, ht⟩
    by_cases hv : f a = v
    · have hzero : t.countP (fun r => f r = v) = 0 := by
        rw [List.countP_eq_zero]
        intro b hb
        simp only [decide_eq_true_eq]
        intro hbv
        exact ha b hb (hv.trans hbv.symm ▸ rfl)
      simp [hzero, hv]
    · simpa [hv] using ih ht

lemma pairwise_inj_on {α β : Type} (f : α → β) :
    ∀ {l : List α}, l.Pairwise (fun a b => f a ≠ f b) →
      ∀ a ∈ l, ∀ b ∈ l, f a = f b → a = b := by
  intro l
  induction l with
  | nil => intro _ a ha; exact absurd ha (List.not_mem_nil _)
  | cons x t ih =>
    intro h a ha b hb heq
    rcases List.pairwise_cons.mp h with ⟨hx, ht⟩
    rcases List.mem_cons.mp ha with rfl | hat
    · rcases List.mem_cons.mp hb with rfl | hbt
      · rfl
      · exact absurd heq (hx b hbt)
    · rcases List.mem_cons.mp hb with rfl | hbt
      · exact absurd heq.symm (hx a hat)
      · exact ih ht a hat b hbt heq

lemma lastUpdate_eq_none_iff (id : Nat) (updates : List (Nat × LapPayload)) :
    lastUpdate id updates = none ↔ ∀ u ∈ updates, u.1 ≠ id := by
  induction updates with
  | nil => simp [lastUpdate]
  | cons u us ih =>
    rw [lastUpdate_cons]
    cases hus : lastUpdate id us with
    | some p =>
      simp only []
      constructor
      · intro h; exact absurd h (by simp)
      · intro h
        exact absurd (hus ▸ (ih.mpr (fun v hv => h v (List.mem_cons_of_mem _ hv))))
          (by simp)
    | none =>
      simp only []
      constructor
      · intro h v hv
        rcases List.mem_cons.mp hv with rfl | hvt
        · intro hid
          rw [if_pos hid] at h
          exact absurd h (by simp)
        · exact ih.mp hus v hvt
      · intro h
        rw [if_neg (h u (List.mem_cons_self u us))]

lemma lastUpdate_mem {id : Nat} {p : LapPayload} :
    ∀ {updates : List (Nat × LapPayload)},
      lastUpdate id updates = some p → ∃ u ∈ updates, u.1 = id ∧ u.2 = p := by
  intro updates
  induction updates with
  | nil => intro h; exact absurd h (by simp [lastUpdate])
  | cons u us ih =>
    intro h
    rw [lastUpdate_cons] at h
    cases hus : lastUpdate id us with
    | some q =>
      rw [hus] at h
      obtain ⟨v, hv, hvp⟩ := ih (hus.trans (by simpa using h))
      exact ⟨v, List.mem_cons_of_mem _ hv, hvp⟩
    | none =>
      rw [hus] at h
      by_cases hid : u.1 = id
      · rw [if_pos hid] at h
        exact ⟨u, List.mem_cons_self u us, hid, Option.some.inj h⟩
      · rw [if_neg hid] at h
        exact absurd h (by simp)

lemma lastUpdate_eq_of_mem {id : Nat} {p : LapPayload} :
    ∀ {updates : List (Nat × LapPayload)}, (id, p) ∈ updates →
      (∀ u ∈ updates, u.1 = id → u.2 = p) →
      lastUpdate id updates = some p := by
  intro updates
  induction updates with
  | nil => intro h; exact absurd h (List.not_mem_nil _)
  | cons u us ih =>
    intro hmem hall
    rw [lastUpdate_cons]
    rcases List.mem_cons.mp hmem with rfl | hus
    · cases hus2 : lastUpdate id us with
      | some q =>
        obtain ⟨v, hv, hv1, hv2⟩ := lastUpdate_mem hus2
        rw [hall v (List.mem_cons_of_mem _ hv) hv1] at hv2
        rw [hv2]
      | none => simp
    · rw [ih hus (fun v hv => hall v (List.mem_cons_of_mem _ hv))]

lemma mem_lapUpdates {st : LapStore} {recs : List (LapKey × LapPayload)}
    {u : Nat × LapPayload} :
    u ∈ lapUpdates st recs
      ↔ ∃ rec ∈ recs, existingLapId st rec.1 = some u.1 ∧ u.2 = rec.2 := by
  unfold lapUpdates
  rw [List.mem_filterMap]
  constructor
  · rintro ⟨rec, hrec, hmap⟩
    obtain ⟨id, hid, heq⟩ := Option.map_eq_some'.mp hmap
    exact ⟨rec, hrec, by rw [hid, ← heq], by rw [← heq]⟩
  · rintro ⟨rec, hrec, hex, hsnd⟩
    refine ⟨rec, hrec, ?_⟩
    rw [hex]
    show some (u.1, rec.2) = some u
    rw [← hsnd]

lemma lapUpdates_id_lt {st : LapStore} {recs : List (LapKey × LapPayload)}
    (hwf : LapStoreWF st) : ∀ u ∈ lapUpdates st recs, u.1 < st.nextId := by
  intro u hu
  obtain ⟨rec, _, hex, _⟩ := mem_lapUpdates.mp hu
  obtain ⟨r, hr, _, hid⟩ := existingLapId_some_mem hex
  exact hid ▸ hwf.1 r hr

lemma insertedLapRows_pairwise_ids (rs : List (LapKey × LapPayload)) :
    ∀ n : Nat,
      (insertedLapRows n rs).Pairwise (fun a b => a.lap_id ≠ b.lap_id) := by
  induction rs with
  | nil => intro n; exact List.Pairwise.nil
  | cons r t ih =>
    intro n
    rw [insertedLapRows, List.pairwise_cons]
    refine ⟨fun row hrow => ?_, ih (n + 1)⟩
    have := (mem_insertedLapRows hrow).1
    show n ≠ row.lap_id
    omega

lemma insertedLapRows_pairwise_keys {rs : List (LapKey × LapPayload)}
    (h : rs.Pairwise (fun a b => a.1 ≠ b.1)) :
    ∀ n : Nat, (insertedLapRows n rs).Pairwise (fun a b => a.key ≠ b.key) := by
  induction rs with
  | nil => intro n; exact List.Pairwise.nil
  | cons r t ih =>
    intro n
    rcases List.pairwise_cons.mp h with ⟨hr, ht⟩
    rw [insertedLapRows, List.pairwise_cons]
    refine ⟨fun row hrow => ?_, ih ht (n + 1)⟩
    obtain ⟨_, _, _, _, rec, hrec, hkey, _⟩ := mem_insertedLapRows hrow
    show r.1 ≠ row.key
    rw [hkey]
    exact hr rec hrec

lemma upsert_laps_rows_eq (st : LapStore) (recs : List (LapKey × LapPayload)) :
    (upsert_laps st recs).rows
      = (st.rows ++ insertedLapRows st.nextId (lapToInsert st recs)).map
          (payloadResolve (lapUpdates st recs)) := by
  show (lapUpdates st recs).foldl (fun rs u => applyLapUpdate rs u.1 u.2) _ = _
  rw [foldl_applyLapUpdate]

lemma upsert_laps_wf {st : LapStore} {recs : List (LapKey × LapPayload)}
    (hwf : LapStoreWF st) (hrecs : recs.Pairwise (fun a b => a.1 ≠ b.1)) :
    LapStoreWF (upsert_laps st recs) := by
  have hto : (lapToInsert st recs).Pairwise (fun a b => a.1 ≠ b.1) :=
    hrecs.filter _
  have hnext : (upsert_laps st recs).nextId
      = st.nextId + (lapToInsert st recs).length := rfl
  rw [LapStoreWF, upsert_laps_rows_eq, hnext]
  have hpairId : (st.rows ++ insertedLapRows st.nextId
      (lapToInsert st recs)).Pairwise (fun a b => a.lap_id ≠ b.lap_id) := by
    rw [List.pairwise_append]
    refine ⟨hwf.2.1, insertedLapRows_pairwise_ids _ _, ?_⟩
    intro a ha b hb
    have h1 := hwf.1 a ha
    have h2 := (mem_insertedLapRows hb).1
    omega
  have hpairKey : (st.rows ++ insertedLapRows st.nextId
      (lapToInsert st recs)).Pairwise (fun a b => a.key ≠ b.key) := by
    rw [List.pairwise_append]
    refine ⟨hwf.2.2, insertedLapRows_pairwise_keys hto _, ?_⟩
    intro a ha b hb
    obtain ⟨_, _, _, _, rec, hrec, hkey, _⟩ := mem_insertedLapRows hb
    have hnone : (existingLapId st rec.1).isNone := by
      simpa using (List.mem_filter.mp hrec).2
    have := (existingLapId_eq_none_iff st rec.1).mp
      (Option.isNone_iff_eq_none.mp hnone) a ha
    rw [hkey]
    exact this
  refine ⟨?_, ?_, ?_⟩
  · intro r hr
    obtain ⟨r0, hr0, rfl⟩ := List.mem_map.mp hr
    rw [payloadResolve_lap_id]
    rcases List.mem_append.mp hr0 with hs | hi
    · have := hwf.1 r0 hs
      omega
    · have := (mem_insertedLapRows hi).2.1
      omega
  · refine hpairId.map _ (fun a b hab => ?_)
    rw [payloadResolve_lap_id, payloadResolve_lap_id]
    exact hab
  · refine hpairKey.map _ (fun a b hab => ?_)
    rw [payloadResolve_key, payloadResolve_key]
    exact hab

lemma update_snd_unique {st : LapStore} {recs : List (LapKey × LapPayload)}
    (hwf : LapStoreWF st) (hrecs : recs.Pairwise (fun a b => a.1 ≠ b.1))
    {rec : LapKey × LapPayload} (hrec : rec ∈ recs) {id : Nat}
    (hex : existingLapId st rec.1 = some id) :
    ∀ u ∈ lapUpdates st recs, u.1 = id → u.2 = rec.2 := by
  intro u hu hid
  obtain ⟨rec2, hrec2, hex2, hsnd2⟩ := mem_lapUpdates.mp hu
  obtain ⟨r, hr, hrkey, hrid⟩ := existingLapId_some_mem hex
  obtain ⟨r2, hr2, hr2key, hr2id⟩ := existingLapId_some_mem hex2
  have hrr : r2 = r :=
    pairwise_inj_on StoredLap.lap_id hwf.2.1 r2 hr2 r hr
      (by show r2.lap_id = r.lap_id; rw [hr2id, hrid, hid])
  have hkeys : rec2.1 = rec.1 := by
    rw [← hr2key, hrr, hrkey]
  have : rec2 = rec := pairwise_inj_on Prod.fst hrecs rec2 hrec2 rec hrec hkeys
  rw [hsnd2, this]

lemma upsert_laps_countP_key {st : LapStore} {recs : List (LapKey × LapPayload)}
    (hwf : LapStoreWF st) (hrecs : recs.Pairwise (fun a b => a.1 ≠ b.1))
    {rec : LapKey × LapPayload} (hrec : rec ∈ recs) :
    (upsert_laps st recs).rows.countP (fun r => r.key = rec.1) = 1 := by
  rw [upsert_laps_rows_eq, List.countP_map]
  have hcong : ∀ l : List StoredLap,
      l.countP ((fun r : StoredLap => decide (r.key = rec.1))
        ∘ payloadResolve (lapUpdates st recs))
      = l.countP (fun r => r.key = rec.1) := by
    intro l
    apply List.countP_congr
    intro r _
    simp [Function.comp, payloadResolve_key]
  rw [hcong, List.countP_append, insertedLapRows_countP_key]
  cases hex : existingLapId st rec.1 with
  | some id =>
    have hstore : st.rows.countP (fun r => r.key = rec.1) = 1 := by
      obtain ⟨r, hr, hrkey, _⟩ := existingLapId_some_mem hex
      have hle := pairwise_countP_le_one StoredLap.key rec.1 hwf.2.2
      have hpos : 0 < st.rows.countP (fun r => r.key = rec.1) :=
        List.countP_pos_iff.mpr ⟨r, hr, by simp [hrkey]⟩
      omega
    have hins : (lapToInsert st recs).countP (fun r => r.1 = rec.1) = 0 := by
      rw [List.countP_eq_zero]
      intro r hr
      have hnone : (existingLapId st r.1).isNone := by
        simpa using (List.mem_filter.mp hr).2
      simp only [decide_eq_true_eq]
      intro hkey
      rw [hkey, hex] at hnone
      exact absurd hnone (by simp)
    rw [hstore, hins]
  | none =>
    have hstore : st.rows.countP (fun r => r.key = rec.1) = 0 := by
      rw [List.countP_eq_zero]
      intro r hr
      have := (existingLapId_eq_none_iff st rec.1).mp hex r hr
      simpa using this
    have hto : rec ∈ lapToInsert st recs := by
      rw [lapToInsert, List.mem_filter]
      exact ⟨hrec, by simp [hex]⟩
    have hfil : (lapToInsert st recs).Pairwise (fun a b => a.1 ≠ b.1) :=
      hrecs.filter _
    have hle := pairwise_countP_le_one
      (Prod.fst : LapKey × LapPayload → LapKey) rec.1 hfil
    have hpos : 0 < (lapToInsert st recs).countP (fun r => r.1 = rec.1) :=
      List.countP_pos_iff.mpr ⟨rec, hto, by simp⟩
    rw [hstore]
    omega

lemma existingLapId_isSome_iff (st : LapStore) (k : LapKey) :
    (existingLapId st k).isSome ↔ ∃ r ∈ st.rows, r.key = k := by
  unfold existingLapId
  rw [Option.isSome_map']
  rw [List.getLast?_isSome]
  constructor
  · intro h
    rcases hne : st.rows.filter (fun r => r.key = k) with _ | ⟨r, t⟩
    · exact absurd hne h
    · have hr : r ∈ st.rows.filter (fun r => r.key = k) := by
        rw [hne]; exact List.mem_cons_self r t
      have := List.mem_filter.mp hr
      exact ⟨r, this.1, by simpa using this.2⟩
  · rintro ⟨r, hr, hk⟩
    exact List.ne_nil_of_mem (List.mem_filter.mpr ⟨hr, by simp [hk]⟩)

lemma upsert_laps_row_exists {st : LapStore} {recs : List (LapKey × LapPayload)}
    (hwf : LapStoreWF st) (hrecs : recs.Pairwise (fun a b => a.1 ≠ b.1))
    {rec : LapKey × LapPayload} (hrec : rec ∈ recs) :
    ∃ row ∈ (upsert_laps st recs).rows,
      row.key = rec.1 ∧ row.payload = rec.2
      ∧ (existingLapId st rec.1 = none →
          st.nextId ≤ row.lap_id ∧ row.is_pit_in_lap = false
            ∧ row.is_valid = true)
      ∧ ∀ id, existingLapId st rec.1 = some id → row.lap_id = id := by
  rw [upsert_laps_rows_eq]
  cases hex : existingLapId st rec.1 with
  | some id =>
    obtain ⟨r0, hr0, hrkey, hrid⟩ := existingLapId_some_mem hex
    refine ⟨payloadResolve (lapUpdates st recs) r0,
      List.mem_map.mpr ⟨r0, List.mem_append.mpr (Or.inl hr0), rfl⟩,
      ?_, ?_, ?_, ?_⟩
    · rw [payloadResolve_key]
      exact hrkey
    · have hmem : (id, rec.2) ∈ lapUpdates st recs :=
        mem_lapUpdates.mpr ⟨rec, hrec, by rw [hex], rfl⟩
      have hlu : lastUpdate id (lapUpdates st recs) = some rec.2 :=
        lastUpdate_eq_of_mem hmem (update_snd_unique hwf hrecs hrec hex)
      rw [payloadResolve_eq]
      show (lastUpdate r0.lap_id (lapUpdates st recs)).getD r0.payload = rec.2
      rw [hrid, hlu]
      rfl
    · intro hno
      exact absurd hno (by simp)
    · intro id2 hid2
      rw [payloadResolve_lap_id, hrid]
      exact Option.some.inj hid2
  | none =>
    have hto : rec ∈ lapToInsert st recs := by
      rw [lapToInsert, List.mem_filter]
      exact ⟨hrec, by simp [hex]⟩
    obtain ⟨row0, hrow0, hkey0, hpay0, hpin0, hval0⟩ :=
      insertedLapRows_exists_row hto st.nextId
    have hge := (mem_insertedLapRows hrow0).1
    have hnone : lastUpdate row0.lap_id (lapUpdates st recs) = none := by
      rw [lastUpdate_eq_none_iff]
      intro u hu
      have := lapUpdates_id_lt hwf u hu
      omega
    refine ⟨payloadResolve (lapUpdates st recs) row0,
      List.mem_map.mpr ⟨row0, List.mem_append.mpr (Or.inr hrow0), rfl⟩,
      ?_, ?_, ?_, ?_⟩
    · rw [payloadResolve_key]
      exact hkey0
    · rw [payloadResolve_eq]
      show (lastUpdate row0.lap_id (lapUpdates st recs)).getD row0.payload
        = rec.2
      rw [hnone]
      exact hpay0
    · intro _
      refine ⟨by rw [payloadResolve_lap_id]; exact hge, ?_, ?_⟩
      · rw [(payloadResolve_flags _ _).1]
        exact hpin0
      · rw [(payloadResolve_flags _ _).2]
        exact hval0
    · intro id2 hid2
      exact absurd hid2 (by simp)

lemma upsert_laps_idem {st : LapStore} {recs : List (LapKey × LapPayload)}
    (hwf : LapStoreWF st) (hrecs : recs.Pairwise (fun a b => a.1 ≠ b.1)) :
    upsert_laps (upsert_laps st recs) recs = upsert_laps st recs := by
  have hwf1 : LapStoreWF (upsert_laps st recs) := upsert_laps_wf hwf hrecs
  have hex1 : ∀ rec ∈ recs, (existingLapId (upsert_laps st recs) rec.1).isSome := by
    intro rec hrec
    obtain ⟨row, hrow, hkey, _⟩ := upsert_laps_row_exists hwf hrecs hrec
    exact (existingLapId_isSome_iff _ _).mpr ⟨row, hrow, hkey⟩
  have hti : lapToInsert (upsert_laps st recs) recs = [] := by
    rw [lapToInsert, List.filter_eq_nil_iff]
    intro rec hrec
    have := hex1 rec hrec
    simp only [Option.isNone_iff_eq_none, decide_eq_true_eq]
    intro hcon
    rw [hcon] at this
    exact absurd this (by simp)
  have hrows : (upsert_laps (upsert_laps st recs) recs).rows
      = (upsert_laps st recs).rows := by
    rw [upsert_laps_rows_eq, hti]
    rw [show insertedLapRows (upsert_laps st recs).nextId [] = [] from rfl,
      List.append_nil]
    have hfix : ∀ row ∈ (upsert_laps st recs).rows,
        payloadResolve (lapUpdates (upsert_laps st recs) recs) row = row := by
      intro row hrow
      cases hlu : lastUpdate row.lap_id
          (lapUpdates (upsert_laps st recs) recs) with
      | none => simp [payloadResolve, hlu]
      | some p =>
        obtain ⟨u, hu, hu1, hu2⟩ := lastUpdate_mem hlu
        obtain ⟨rec2, hrec2, hex2, hsnd2⟩ := mem_lapUpdates.mp hu
        obtain ⟨r1, hr1, hr1key, hr1id⟩ := existingLapId_some_mem hex2
        have hr1row : r1 = row :=
          pairwise_inj_on StoredLap.lap_id hwf1.2.1 r1 hr1 row hrow
            (by show r1.lap_id = row.lap_id; rw [hr1id, hu1])
        have hrowkey : row.key = rec2.1 := by
          rw [← hr1row]
          exact hr1key
        obtain ⟨row2, hrow2, hkey2, hpay2, _, _⟩ :=
          upsert_laps_row_exists hwf hrecs hrec2
        have hrr : row = row2 :=
          pairwise_inj_on StoredLap.key hwf1.2.2 row hrow row2 hrow2
            (by show row.key = row2.key; rw [hrowkey, hkey2])
        have hpayrow : row.payload = p := by
          rw [hrr, hpay2, ← hsnd2, hu2]
        simp [payloadResolve, hlu]
        rw [← hpayrow]
    calc (upsert_laps st recs).rows.map
          (payloadResolve (lapUpdates (upsert_laps st recs) recs))
        = (upsert_laps st recs).rows.map (fun r => r) :=
          List.map_congr_left hfix
      _ = (upsert_laps st recs).rows := List.map_id' _
  have hnid : (upsert_laps (upsert_laps st recs) recs).nextId
      = (upsert_laps st recs).nextId := by
    show (upsert_laps st recs).nextId + (lapToInsert (upsert_laps st recs) recs).length
      = (upsert_laps st recs).nextId
    rw [hti]
    rfl
  calc upsert_laps (upsert_laps st recs) recs
      = ⟨(upsert_laps (upsert_laps st recs) recs).rows,
         (upsert_laps (upsert_laps st recs) recs).nextId⟩ := rfl
    _ = ⟨(upsert_laps st recs).rows, (upsert_laps st recs).nextId⟩ := by
        rw [hrows, hnid]
    _ = upsert_laps st recs := rfl

/-- C9: the row-level lap upsert is idempotent: a second run on the same
records is a no-op; each key already in the store is updated in place, only
absent keys insert; after the run exactly one row per incoming natural key
holds that record's (latest) payload. -/
theorem c9_lap_upsert_idempotent (st : LapStore)
    (recs : List (LapKey × LapPayload)) (hwf : LapStoreWF st)
    (hrecs : recs.Pairwise (fun a b => a.1 ≠ b.1)) :
    upsert_laps (upsert_laps st recs) recs = upsert_laps st recs
    ∧ (upsert_laps st recs).rows.length
        = st.rows.length
          + recs.countP (fun r => (existingLapId st r.1).isNone)
    ∧ ∀ rec ∈ recs,
        (upsert_laps st recs).rows.countP (fun r => r.key = rec.1) = 1
        ∧ ∃ row ∈ (upsert_laps st recs).rows,
            row.key = rec.1 ∧ row.payload = rec.2
            ∧ (∀ id, existingLapId st rec.1 = some id → row.lap_id = id)
            ∧ (existingLapId st rec.1 = none → st.nextId ≤ row.lap_id) := by
  refine ⟨upsert_laps_idem hwf hrecs, ?_, fun rec hrec => ?_⟩
  · rw [upsert_laps_rows_eq, List.length_map, List.length_append,
      insertedLapRows_length, lapToInsert, ← List.countP_eq_length_filter]
  · refine ⟨upsert_laps_countP_key hwf hrecs hrec, ?_⟩
    obtain ⟨row, hrow, hkey, hpay, hnew, hupd⟩ :=
      upsert_laps_row_exists hwf hrecs hrec
    exact ⟨row, hrow, hkey, hpay, hupd, fun hno => (hnew hno).1⟩

/-- A concrete lap payload without speed values. -/
def lapPayloadA : LapPayload :=
  ⟨some 91000, some 30000, some 30500, some 30500, none, none, none,
    some false, none, none, none⟩

/-- A second concrete lap payload. -/
def lapPayloadB : LapPayload :=
  ⟨some 90500, some 29800, some 30200, some 30500, none, none, none,
    some false, none, none, none⟩

/-- A third concrete lap payload. -/
def lapPayloadC : LapPayload :=
  ⟨some 89900, some 29500, some 30100, some 30300, none, none, none,
    some true, none, none, none⟩

/-- A well-formed one-row lap store. -/
def lapStoreExample : LapStore :=
  ⟨[⟨0, ⟨"s1", "d1", 1, "t1"⟩, lapPayloadA, false, true⟩], 1⟩

/-- Two incoming lap records: one re-ingests the stored lap with a fresh
payload, one is a new lap. -/
def lapRecsExample : List (LapKey × LapPayload) :=
  [(⟨"s1", "d1", 1, "t1"⟩, lapPayloadB), (⟨"s1", "d1", 2, "t2"⟩, lapPayloadC)]

/-- Witness for C9 on the concrete store and batch. -/
theorem c9_lap_upsert_idempotent_witness :
    upsert_laps (upsert_laps lapStoreExample lapRecsExample) lapRecsExample
      = upsert_laps lapStoreExample lapRecsExample
    ∧ (upsert_laps lapStoreExample lapRecsExample).rows.length
        = lapStoreExample.rows.length
          + lapRecsExample.countP
            (fun r => (existingLapId lapStoreExample r.1).isNone)
    ∧ ∀ rec ∈ lapRecsExample,
        (upsert_laps lapStoreExample lapRecsExample).rows.countP
          (fun r => r.key = rec.1) = 1
        ∧ ∃ row ∈ (upsert_laps lapStoreExample lapRecsExample).rows,
            row.key = rec.1 ∧ row.payload = rec.2
            ∧ (∀ id, existingLapId lapStoreExample rec.1 = some id →
                row.lap_id = id)
            ∧ (existingLapId lapStoreExample rec.1 = none →
                lapStoreExample.nextId ≤ row.lap_id) :=
  c9_lap_upsert_idempotent lapStoreExample lapRecsExample
    (by decide) (by decide)

/-! ### Freshly inserted laps are valid (upsert_laps.py INSERT,
upsert_points_awarding.py get_session_context) -/

/-- One step of SQL `MAX` over integers. -/
def maxStep (acc : Option Int) (x : Int) : Option Int :=
  match acc with
  | none => some x
  | some m => some (max m x)

/-- SQL `MAX` over a list of integers, NULL (`none`) on the empty list. -/
def maxIntOpt (l : List Int) : Option Int := l.foldl maxStep none

/-- The completed-lap fallback of `get_session_context`:
`SELECT MAX(lap_number) FROM silver.laps WHERE session_id = %s AND
is_valid = TRUE`. -/
def maxValidLapNumber (rows : List StoredLap) (sid : String) : Option Int :=
  maxIntOpt ((rows.filter
    (fun r => r.key.session_id == sid && r.is_valid)).map
    (fun r => r.key.lap_number))

lemma foldl_maxStep_bound (l : List Int) :
    ∀ a : Int, ∃ m, List.foldl maxStep (some a) l = some m
      ∧ a ≤ m ∧ ∀ x ∈ l, x ≤ m := by
  induction l with
  | nil => intro a; exact ⟨a, rfl, le_refl a, by simp⟩
  | cons h t ih =>
    intro a
    obtain ⟨m, hm, ham, hall⟩ := ih (max a h)
    refine ⟨m, ?_, le_trans (le_max_left a h) ham, ?_⟩
    · rw [List.foldl_cons]
      exact hm
    · intro x hx
      rcases List.mem_cons.mp hx with rfl | hxt
      · exact le_trans (le_max_right a x) ham
      · exact hall x hxt

lemma maxIntOpt_ge_of_mem {l : List Int} {x : Int} (hx : x ∈ l) :
    ∃ m, maxIntOpt l = some m ∧ x ≤ m := by
  cases l with
  | nil => exact absurd hx (List.not_mem_nil _)
  | cons h t =>
    obtain ⟨m, hm, ham, hall⟩ := foldl_maxStep_bound t h
    refine ⟨m, ?_, ?_⟩
    · rw [maxIntOpt, List.foldl_cons]
      exact hm
    · rcases List.mem_cons.mp hx with rfl | hxt
      · exact ham
      · exact hall x hxt

/-- C10: every lap row freshly inserted by the lap upsert carries
is_pit_in_lap = FALSE and is_valid = TRUE, and therefore contributes to the
max-valid-lap-number completed-lap count for its session. -/
theorem c10_fresh_laps_valid (st : LapStore)
    (recs : List (LapKey × LapPayload)) (hwf : LapStoreWF st)
    (row : StoredLap) (hrow : row ∈ (upsert_laps st recs).rows)
    (hnew : st.nextId ≤ row.lap_id) :
    row.is_pit_in_lap = false ∧ row.is_valid = true
    ∧ ∃ m, maxValidLapNumber (upsert_laps st recs).rows row.key.session_id
          = some m
        ∧ row.key.lap_number ≤ m := by
  have hflags : row.is_pit_in_lap = false ∧ row.is_valid = true := by
    rw [upsert_laps_rows_eq] at hrow
    obtain ⟨r0, hr0, rfl⟩ := List.mem_map.mp hrow
    rcases List.mem_append.mp hr0 with hs | hi
    · have hlt := hwf.1 r0 hs
      rw [payloadResolve_lap_id] at hnew
      omega
    · obtain ⟨_, _, hpin, hval, _⟩ := mem_insertedLapRows hi
      exact ⟨(payloadResolve_flags _ _).1.trans hpin,
        (payloadResolve_flags _ _).2.trans hval⟩
  refine ⟨hflags.1, hflags.2, ?_⟩
  have hmemf : row ∈ (upsert_laps st recs).rows.filter
      (fun r => r.key.session_id == row.key.session_id && r.is_valid) := by
    rw [List.mem_filter]
    exact ⟨hrow, by simp [hflags.2]⟩
  exact maxIntOpt_ge_of_mem (List.mem_map.mpr ⟨row, hmemf, rfl⟩)

/-- Witness for C10: the lap freshly inserted into an empty store is valid
and is the max valid lap of its session. -/
theorem c10_fresh_laps_valid_witness :
    (⟨0, ⟨"s9", "d9", 7, "t9"⟩, lapPayloadC, false, true⟩ : StoredLap).is_pit_in_lap = false
    ∧ (⟨0, ⟨"s9", "d9", 7, "t9"⟩, lapPayloadC, false, true⟩ : StoredLap).is_valid = true
    ∧ ∃ m, maxValidLapNumber
        (upsert_laps ⟨[], 0⟩ [(⟨"s9", "d9", 7, "t9"⟩, lapPayloadC)]).rows
        "s9" = some m ∧ (7 : Int) ≤ m :=
  c10_fresh_laps_valid ⟨[], 0⟩ [(⟨"s9", "d9", 7, "t9"⟩, lapPayloadC)]
    (by decide) ⟨0, ⟨"s9", "d9", 7, "t9"⟩, lapPayloadC, false, true⟩
    (by decide) (by decide)

end Pitwall
